import Mathlib

/-!
Verification of the cytube-connector client against its specification.

The repository contains two implementations of the connector:
* `src/client.ts`   — the TypeScript version (class `CytubeConnector`), embedded
  below in namespace `TS`;
* `src/client.js` and `src/unnamed/part_000` — the JavaScript version, embedded
  below in namespace `JS`.

Machine integers do not occur; all payloads are opaque strings/objects, which we
embed as a small `Val` type.  Fallible operations return `Except`/`Option`.
The event-driven handshake of `connect()` (TS) / `start()` (JS) is embedded as a
listener registry over which inbound socket events are delivered one at a time
(the code is single-threaded and each handler runs to completion).
-/

/-- Candidate endpoint from the `/socketconfig/{chan}.json` response:
`{ url, secure, ipv6? }`.  `ipv6 = none` models the marker being absent
(`typeof server.ipv6 === "undefined"`). -/
structure Server where
  url : String
  secure : Bool
  ipv6 : Option Bool
deriving DecidableEq, Repr

/-- A candidate is suitable when `server.secure === this.#secure` and
`typeof server.ipv6 === "undefined"` (JS `getSocketURL` loop condition). -/
def serverMatches (secure : Bool) (s : Server) : Bool :=
  s.secure == secure && s.ipv6 == none

namespace TS

/-- Embeds `src/client.ts` `getSocketURL` endpoint selection (lines 246-252):
`data.servers.find(i => i.secure === this.#secure)`; on no match it throws
`new Error("No suitable socket available")`.  The HTTP fetch itself is not
modelled: the parsed `servers` array is the argument. -/
def getSocketURL (secure : Bool) (servers : List Server) : Except String String :=
  match servers.find? (fun s => s.secure == secure) with
  | none => Except.error "No suitable socket available"
  | some s => Except.ok s.url

end TS

namespace JS

/-- One step of the `while (servers.length) { const server = servers.pop(); ... }`
loop body of `src/client.js` `getSocketURL` (lines 155-161): on a full match the
selected URL is overwritten.  The loop pops from the end of the copied array, so
it visits the original list from last to first; `visitReversed` performs that
visit as a pass over the reversed list, threading the `#socketURL` accumulator. -/
def visitReversed (secure : Bool) (acc : Option String) : List Server → Option String
  | [] => acc
  | s :: rest =>
      visitReversed secure (if serverMatches secure s then some s.url else acc) rest

/-- The whole scan of `src/client.js` `getSocketURL`: `#socketURL` starts `null`
and the copied server array is consumed from the end. -/
def scanServers (secure : Bool) (servers : List Server) : Option String :=
  visitReversed secure none servers.reverse

/-- Embeds `src/client.js` `getSocketURL` (lines 155-166): after the scan, a
still-`null` `#socketURL` yields the error `"No suitable socket available"`
(emitted as an `error` event in the source; embedded as `Except.error`). -/
def getSocketURL (secure : Bool) (servers : List Server) : Except String String :=
  match scanServers secure servers with
  | none => Except.error "No suitable socket available"
  | some u => Except.ok u

end JS

/-- Concrete endpoint list: three secure candidates, the first carrying an ipv6
marker, the other two full matches. -/
def cxServers : List Server :=
  [⟨"wss-a", true, some true⟩, ⟨"wss-b", true, none⟩, ⟨"wss-c", true, none⟩]

/-- Concrete endpoint list with a single candidate that matches the secure flag
but carries the ipv6 marker, so it is not a full match. -/
def cx2Servers : List Server := [⟨"wss-a", true, some true⟩]

/-- Connector instance fields, as assigned by the constructors of both
implementations (`#chan`, `#host`, `#port`, `#user`, `#secure`, `#pass`,
`#auth`, `#agent`). -/
structure Connector where
  chan : String
  host : String
  port : Nat
  user : String
  secure : Bool
  pass : Option String
  auth : Option String
  agent : String
deriving DecidableEq, Repr

/-- Raw constructor options as a JavaScript object: any field may be absent
(`none`).  Used by the JS constructor, which checks presence at runtime. -/
structure RawOptions where
  chan : Option String
  host : Option String
  port : Option Nat
  user : Option String
  secure : Option Bool
  pass : Option String
  auth : Option String
deriving DecidableEq, Repr

/-- JavaScript truthiness of an optional string (`!options[option]` fails for
absent fields and for the empty string). -/
def truthyS : Option String → Bool
  | none => false
  | some s => !(s == "")

/-- JavaScript truthiness of an optional number (absent or `0` is falsy). -/
def truthyN : Option Nat → Bool
  | none => false
  | some n => !(n == 0)

namespace JS

/-- Embeds the constructor of `src/unnamed/part_000` (lines 105-121): each of
`chan`, `host`, `port`, `user` is checked for truthiness in order and a
missing one throws `Parameter "<option>" is required`; the remaining options
default via `?? true` / `?? null`, and `#agent` is initialised to
`"cytube-client"`. -/
def construct (o : RawOptions) : Except String Connector :=
  if !truthyS o.chan then Except.error "Parameter chan is required"
  else if !truthyS o.host then Except.error "Parameter host is required"
  else if !truthyN o.port then Except.error "Parameter port is required"
  else if !truthyS o.user then Except.error "Parameter user is required"
  else Except.ok
    { chan := o.chan.getD "", host := o.host.getD "", port := o.port.getD 0,
      user := o.user.getD "", secure := o.secure.getD true,
      pass := o.pass, auth := o.auth, agent := "cytube-client" }

end JS

namespace TS

/-- Constructor options of `src/client.ts` (`ConnectorOptions`): `chan`, `host`,
`user`, `port` are required by the type; `secure`, `pass`, `auth`, `agent` are
optional. -/
structure Options where
  chan : String
  host : String
  user : String
  port : Nat
  secure : Option Bool
  pass : Option String
  auth : Option String
  agent : Option String
deriving DecidableEq, Repr

/-- Embeds the constructor of `src/client.ts` (lines 203-216): plain field
assignments with `?? true`, `?? null`, `?? "cytube-client"` defaults and no
runtime validation. -/
def construct (o : Options) : Connector :=
  { chan := o.chan, host := o.host, port := o.port, user := o.user,
    secure := o.secure.getD true, pass := o.pass, auth := o.auth,
    agent := o.agent.getD "cytube-client" }

end TS

/-- Embeds the lookup URL built by `getSocketURL` in both implementations:
`${secure ? "https" : "http"}://${host}:${port}/socketconfig/${chan}.json`. -/
def socketConfigURL (c : Connector) : String :=
  (if c.secure then "https" else "http") ++ "://" ++ c.host ++ ":"
    ++ toString c.port ++ "/socketconfig/" ++ c.chan ++ ".json"

/-- Opaque JavaScript values passed through frames: strings, numbers, `null`,
or the login-result object (only its `success` field is ever read). -/
inductive Val
  | vStr (s : String)
  | vNum (n : Int)
  | vNull
  | vLogin (success : Bool)
deriving DecidableEq, Repr

/-- Observable effects of the connector: an event emitted on the consumer bus
(`this.emit(name, ...args)`), an `error` event carrying one of the error kinds
of the taxonomy, or a frame written to the transport (`socket.emit`). -/
inductive ErrKind
  | PasswordRequired
  | LoginFailure
  | LoginRejected
  | HandshakeTimeout
  | TransportError
deriving DecidableEq, Repr

inductive Output
  | busEvent (name : String) (args : List Val)
  | busError (k : ErrKind)
  | send (frame : String) (payload : List Val)
deriving DecidableEq, Repr

namespace TS

/-- Embeds the `socket` getter of `src/client.ts` (lines 218-224): a `null`
`#socket` throws `new Error("Not connected")`.  The live socket carries no
data we need, hence `Unit`. -/
def socketGet : Option Unit → Except String Unit
  | none => Except.error "Not connected"
  | some s => Except.ok s

/-- `chat` (line 324): `this.socket.emit("chatMsg", chatMessage)`. -/
def chat (sk : Option Unit) (chatMessage : String) : Except String Output :=
  (socketGet sk).map fun _ => Output.send "chatMsg" [Val.vStr chatMessage]

/-- `pm` (line 328): `this.socket.emit("pm", privateMessage)`. -/
def pm (sk : Option Unit) (privateMessage : String) : Except String Output :=
  (socketGet sk).map fun _ => Output.send "pm" [Val.vStr privateMessage]

/-- `getUserList` (line 333): `this.socket.emit("userlist")`. -/
def getUserList (sk : Option Unit) : Except String Output :=
  (socketGet sk).map fun _ => Output.send "userlist" []

/-- `createPoll` (line 338): `this.socket.emit("newPoll", pollName)`. -/
def createPoll (sk : Option Unit) (pollName : String) : Except String Output :=
  (socketGet sk).map fun _ => Output.send "newPoll" [Val.vStr pollName]

/-- `closePoll` (line 342): `this.socket.emit("closePoll")`. -/
def closePoll (sk : Option Unit) : Except String Output :=
  (socketGet sk).map fun _ => Output.send "closePoll" []

/-- `sendOptions` (line 347): `this.socket.emit("setOptions", opts)`. -/
def sendOptions (sk : Option Unit) (opts : Val) : Except String Output :=
  (socketGet sk).map fun _ => Output.send "setOptions" [opts]

/-- `sendPermissions` (line 351): `this.socket.emit("setPermissions", perms)`. -/
def sendPermissions (sk : Option Unit) (perms : Val) : Except String Output :=
  (socketGet sk).map fun _ => Output.send "setPermissions" [perms]

/-- `sendBanner` (line 355): `this.socket.emit("setMotd", banner)`. -/
def sendBanner (sk : Option Unit) (banner : String) : Except String Output :=
  (socketGet sk).map fun _ => Output.send "setMotd" [Val.vStr banner]

/-- `bans` (line 360): `this.socket.emit("requestBanlist")`. -/
def bans (sk : Option Unit) : Except String Output :=
  (socketGet sk).map fun _ => Output.send "requestBanlist" []

/-- `unban` (line 364): `this.socket.emit("unban", ban)`. -/
def unban (sk : Option Unit) (ban : String) : Except String Output :=
  (socketGet sk).map fun _ => Output.send "unban" [Val.vStr ban]

/-- `leader` (line 369): `this.socket.emit("assignLeader", leader)`. -/
def leader (sk : Option Unit) (ldr : String) : Except String Output :=
  (socketGet sk).map fun _ => Output.send "assignLeader" [Val.vStr ldr]

/-- `deleteVideo` (line 373): `this.socket.emit("delete", uid)`. -/
def deleteVideo (sk : Option Unit) (uid : String) : Except String Output :=
  (socketGet sk).map fun _ => Output.send "delete" [Val.vStr uid]

/-- `move` (line 377): `this.socket.emit("moveMedia", pos)`. -/
def move (sk : Option Unit) (pos : Int) : Except String Output :=
  (socketGet sk).map fun _ => Output.send "moveMedia" [Val.vNum pos]

/-- `jump` (line 381): `this.socket.emit("jumpTo", uid)`. -/
def jump (sk : Option Unit) (uid : String) : Except String Output :=
  (socketGet sk).map fun _ => Output.send "jumpTo" [Val.vStr uid]

/-- `shuffle` (line 385): `this.socket.emit("shufflePlaylist")`. -/
def shuffle (sk : Option Unit) : Except String Output :=
  (socketGet sk).map fun _ => Output.send "shufflePlaylist" []

/-- `playlist` (line 389): `this.socket.emit("requestPlaylist")`. -/
def playlist (sk : Option Unit) : Except String Output :=
  (socketGet sk).map fun _ => Output.send "requestPlaylist" []

end TS

/-- The fixed catalog of inbound frame names relayed to the consumer bus
(identical in `src/client.ts` lines 25-106 and `src/client.js` lines 7-87). -/
def handlers : List String :=
  [ "disconnect",
    "announcement", "clearVoteskipVote", "kick", "login", "setAFK",
    "addFilterSuccess", "addUser", "banlist", "banlistRemove",
    "cancelNeedPassword", "changeMedia", "channelCSSJS",
    "channelNotRegistered", "channelOpts", "channelRankFail", "channelRanks",
    "chatFilters", "chatMsg", "clearchat", "clearFlag", "closePoll",
    "cooldown", "costanza", "delete", "deleteChatFilter", "drinkCount",
    "emoteList", "empty", "errorMsg", "listPlaylists", "loadFail",
    "mediaUpdate", "moveVideo", "needPassword", "newPoll", "noflood",
    "playlist", "pm", "queue", "queueFail", "queueWarn", "rank",
    "readChanLog", "removeEmote", "renameEmote", "searchResults",
    "setCurrent", "setFlag", "setLeader", "setMotd", "setPermissions",
    "setPlaylistLocked", "setPlaylistMeta", "setTemp", "setUserMeta",
    "setUserProfile", "setUserRank", "spamFiltered", "updateChatFilter",
    "updateEmote", "updatePoll", "usercount", "userLeave", "userlist",
    "validationError", "validationPassed", "voteskip", "warnLargeChandump" ]

/-- The behaviour a socket listener runs when its event fires, one constructor
per distinct handler body in `connect()` of `src/client.ts` (lines 263-311). -/
inductive Act
  /-- relay handler installed for every catalog frame:
  `socket.on(frame, (...args) => this.emit(frame, ...args))` (lines 266-270). -/
  | relayAct
  /-- `socket.on("error", (err) => this.emit("error", err))` (line 264). -/
  | errAct
  /-- `socket.once("connect", ...)` body: install the relay handlers and emit
  `connected` (lines 265-273). -/
  | connectAct
  /-- `socket.once("needPassword", ...)` body (lines 278-285). -/
  | passwordAct
  /-- `socket.once("login", ...)` body (lines 291-304). -/
  | loginAct
  /-- `socket.once("rank", ...)` body (lines 306-311). -/
  | rankAct
deriving DecidableEq, Repr

/-- One registered socket listener: event name, one-shot flag (`once` vs `on`),
and its behaviour. -/
structure Listener where
  name : String
  once : Bool
  act : Act
deriving DecidableEq, Repr

/-- The connector state once `connect()` has run: the configured password,
username and auth token, the socket's listener registry in registration order,
and whether the 60-second killswitch timeout is still scheduled. -/
structure ClientState where
  pass : Option String
  user : String
  auth : Option String
  listeners : List Listener
  killswitchArmed : Bool
deriving DecidableEq, Repr

/-- An occurrence the event loop processes: either a named socket event with
its arguments (inbound frames and the transport `connect` notice), or the
killswitch timeout becoming due. -/
inductive Ev
  | frame (name : String) (args : List Val)
  | timer
deriving DecidableEq, Repr

/-- Truthiness of `data.success` when `data` is the first argument of a login
frame: only a login-result object with `success: true` counts (any other value
has no truthy `success` property). -/
def successOf : Val → Bool
  | Val.vLogin b => b
  | _ => false

/-- The `pw: this.#auth` field of the outgoing login frame (`null` when unset). -/
def authVal : Option String → Val
  | some a => Val.vStr a
  | none => Val.vNull

/-- The relay listeners installed by the `connect` handler:
`for (const frame of handlers) socket.on(frame, ...)`. -/
def relayListeners : List Listener :=
  handlers.map fun f => { name := f, once := false, act := Act.relayAct }

/-- Runs one listener body.  Returns the successor state and the outputs it
emits, mirroring the handler bodies of `connect()` in `src/client.ts`. -/
def invoke (cs : ClientState) (name : String) (args : List Val) :
    Act → ClientState × List Output
  | Act.relayAct => (cs, [Output.busEvent name args])
  | Act.errAct => (cs, [Output.busError ErrKind.TransportError])
  | Act.connectAct =>
      ({ cs with listeners := cs.listeners ++ relayListeners },
        [Output.busEvent "connected" []])
  | Act.passwordAct =>
      match cs.pass with
      | none => (cs, [Output.busError ErrKind.PasswordRequired])
      | some p => (cs, [Output.send "channelPassword" [Val.vStr p]])
  | Act.loginAct =>
      match args with
      | [] => (cs, [Output.busError ErrKind.LoginFailure])
      | v :: _ =>
          if successOf v then
            ({ cs with killswitchArmed := false }, [Output.busEvent "started" []])
          else (cs, [Output.busError ErrKind.LoginRejected])
  | Act.rankAct =>
      (cs, [Output.send "login" [Val.vStr cs.user, authVal cs.auth]])

/-- Runs the matched listener bodies in registration order, threading the
state and concatenating outputs. -/
def runMatched (name : String) (args : List Val) :
    ClientState → List Act → ClientState × List Output
  | cs, [] => (cs, [])
  | cs, a :: rest =>
      let r1 := invoke cs name args a
      let r2 := runMatched name args r1.1 rest
      (r2.1, r1.2 ++ r2.2)

/-- The listener bodies that fire for an event of the given name, in
registration order. -/
def matchedActs (name : String) (ls : List Listener) : List Act :=
  (ls.filter fun l => l.name == name).map fun l => l.act

/-- Removes the consumed one-shot listeners of the fired event name
(`once` semantics: removed before the bodies run). -/
def removeOnce (name : String) (ls : List Listener) : List Listener :=
  ls.filter fun l => !(l.name == name && l.once)

/-- Delivers one occurrence: a named event fires its matched listeners
(one-shot ones removed first); the killswitch timeout, if still scheduled,
emits the 60-second handshake failure error and is spent. -/
def deliver (cs : ClientState) : Ev → ClientState × List Output
  | Ev.frame name args =>
      runMatched name args { cs with listeners := removeOnce name cs.listeners }
        (matchedActs name cs.listeners)
  | Ev.timer =>
      if cs.killswitchArmed then
        ({ cs with killswitchArmed := false },
          [Output.busError ErrKind.HandshakeTimeout])
      else (cs, [])

/-- Delivers a sequence of occurrences in order (the event loop runs each
handler to completion before the next occurrence). -/
def run : ClientState → List Ev → ClientState × List Output
  | cs, [] => (cs, [])
  | cs, e :: rest =>
      let r1 := deliver cs e
      let r2 := run r1.1 rest
      (r2.1, r1.2 ++ r2.2)

/-- The listener registry right after `connect()` returns, in registration
order (`src/client.ts` lines 263-311): the `error` relay, the one-shot
`connect` attachment handler, then the one-shot `needPassword`, `login` and
`rank` handshake handlers. -/
def initListeners : List Listener :=
  [ { name := "error", once := false, act := Act.errAct },
    { name := "connect", once := true, act := Act.connectAct },
    { name := "needPassword", once := true, act := Act.passwordAct },
    { name := "login", once := true, act := Act.loginAct },
    { name := "rank", once := true, act := Act.rankAct } ]

/-- Connector state right after `connect()` returns: all handshake listeners
registered and the 60-second killswitch armed (it is scheduled after the
`joinChannel` frame is sent, before any inbound frame can be processed). -/
def initState (pass : Option String) (user : String) (auth : Option String) :
    ClientState :=
  { pass := pass, user := user, auth := auth, listeners := initListeners,
    killswitchArmed := true }

/-- The outputs `connect()` itself produces before any inbound event: the
`connecting` lifecycle event, the `joinChannel` frame naming the channel, and
the `starting` lifecycle event. -/
def connectOutputs (chan : String) : List Output :=
  [ Output.busEvent "connecting" [], Output.send "joinChannel" [Val.vStr chan],
    Output.busEvent "starting" [] ]

/-- Number of `error` events of a given kind in an output list. -/
def countErr (k : ErrKind) (os : List Output) : Nat :=
  os.countP fun o => match o with
    | Output.busError k2 => k2 == k
    | _ => false

/-- Number of consumer-bus events of a given name in an output list. -/
def countBus (n : String) (os : List Output) : Nat :=
  os.countP fun o => match o with
    | Output.busEvent m _ => m == n
    | _ => false

/-- Number of transport writes of a given frame name in an output list. -/
def countSend (f : String) (os : List Output) : Nat :=
  os.countP fun o => match o with
    | Output.send g _ => g == f
    | _ => false

/-- The consumer-bus events of a given name in an output list. -/
def busNamed (n : String) (os : List Output) : List Output :=
  os.filter fun o => match o with
    | Output.busEvent m _ => m == n
    | _ => false

/-- Number of listeners with a given behaviour. -/
def actCount (a : Act) (ls : List Listener) : Nat :=
  ls.countP fun l => l.act == a

/-- Number of relay listeners registered for a given frame name. -/
def relayCount (f : String) (ls : List Listener) : Nat :=
  ls.countP fun l => l.name == f && l.act == Act.relayAct

def isFrameNamed (m : String) : Ev → Bool
  | Ev.frame n _ => n == m
  | Ev.timer => false

def isTimer : Ev → Bool
  | Ev.timer => true
  | Ev.frame _ _ => false

/-- Every listener with the given behaviour is registered under the given
event name as a one-shot listener. -/
def actNamedOnce (a : Act) (nm : String) (ls : List Listener) : Prop :=
  ∀ l ∈ ls, l.act = a → l.name = nm ∧ l.once = true

/-- Event names any listener can ever be registered under. -/
def knownNames : List String :=
  "error" :: "connect" :: "needPassword" :: "login" :: "rank" :: handlers

/-- Well-formedness of a listener registry reachable from `initListeners`:
names come from `knownNames`; each handshake behaviour only ever sits on its
own one-shot listener; relay listeners are persistent and named by catalog
frames; the error relay is named `error`. -/
def WF (ls : List Listener) : Prop :=
  (∀ l ∈ ls, l.name ∈ knownNames) ∧
  actNamedOnce Act.passwordAct "needPassword" ls ∧
  actNamedOnce Act.loginAct "login" ls ∧
  actNamedOnce Act.rankAct "rank" ls ∧
  actNamedOnce Act.connectAct "connect" ls ∧
  (∀ l ∈ ls, l.act = Act.relayAct → l.once = false ∧ l.name ∈ handlers) ∧
  (∀ l ∈ ls, l.act = Act.errAct → l.name = "error")

/-- Relay listeners and the one-shot `connect` attachment handler balance out:
for every catalog frame, exactly one of "the attachment is still pending" and
"the relay listener is installed" holds. -/
def RelayInv (ls : List Listener) : Prop :=
  ∀ f ∈ handlers, relayCount f ls + actCount Act.connectAct ls = 1

/-- Number of occurrences of one exact output in an output list. -/
def countOut (o : Output) (os : List Output) : Nat :=
  os.countP fun o2 => o2 == o

/-- A login-result frame with no body (`typeof data === "undefined"`). -/
def loginFailed (args : List Val) : Bool := args.isEmpty

/-- A login-result frame whose body has a truthy `success` field. -/
def loginOK : List Val → Bool
  | [] => false
  | v :: _ => successOf v

/-- A login-result frame with a body whose `success` field is falsy. -/
def loginRejected : List Val → Bool
  | [] => false
  | v :: _ => !(successOf v)

theorem visitReversed_append (secure : Bool) (acc : Option String)
    (xs ys : List Server) :
    JS.visitReversed secure acc (xs ++ ys)
      = JS.visitReversed secure (JS.visitReversed secure acc xs) ys := by
  induction xs generalizing acc with
  | nil => rfl
  | cons s rest ih => simp [JS.visitReversed, ih]

/-- The reverse-scan last-write-wins loop selects the url of the first full
match in original order. -/
theorem scanServers_eq_find (secure : Bool) (servers : List Server) :
    JS.scanServers secure servers
      = (servers.find? (serverMatches secure)).map (fun s => s.url) := by
  induction servers with
  | nil => rfl
  | cons s rest ih =>
      unfold JS.scanServers at *
      rw [List.reverse_cons, visitReversed_append]
      by_cases h : serverMatches secure s
      · simp [JS.visitReversed, h, List.find?_cons]
      · simp only [Bool.not_eq_true] at h
        simp [JS.visitReversed, h, List.find?_cons, ih]

/-- A first secure-flag match whose ipv6 marker is absent is also the first
full match. -/
theorem find_full_of_find_secure (secure : Bool) (servers : List Server)
    (t : Server) (ht : servers.find? (fun u => u.secure == secure) = some t)
    (hipv6 : t.ipv6 = none) :
    servers.find? (serverMatches secure) = some t := by
  induction servers with
  | nil => simp at ht
  | cons s rest ih =>
      by_cases hsec : (s.secure == secure) = true
      · simp only [List.find?_cons, hsec] at ht
        have hts : s = t := Option.some.inj ht
        subst hts
        have hm : serverMatches secure s = true := by
          simp [serverMatches, hsec, hipv6]
        simp [List.find?_cons, hm]
      · have hsec' : (s.secure == secure) = false := by
          simpa using hsec
        simp only [List.find?_cons, hsec'] at ht
        have hm : serverMatches secure s = false := by
          simp [serverMatches, hsec']
        simp only [List.find?_cons, hm]
        exact ih ht

/-- C1 counterexample: on `cxServers` the scan-reverse last-write-wins tie-break
selects `"wss-b"` (first full match in original order), but the TypeScript
`getSocketURL` returns `"wss-a"`, the first candidate matching only the secure
flag — it never inspects the ipv6 marker.  So the claim fails on `src/client.ts`. -/
theorem tiebreak_claim_counterexample :
    2 ≤ (cxServers.filter (serverMatches true)).length ∧
    JS.scanServers true cxServers = some "wss-b" ∧
    TS.getSocketURL true cxServers = Except.ok "wss-a" ∧
    ("wss-a" : String) ≠ "wss-b" := by
  refine ⟨by decide, by rfl, by rfl, by decide⟩

/-- C1 (amended): for endpoint lists with at least two full matches
(`secure == config.secure`, no ipv6 marker), the JavaScript `getSocketURL`
returns the URL chosen by the scan-reverse last-write-wins tie-break, i.e. the
full match closest to the start of the list; the TypeScript `getSocketURL`
instead returns the first candidate whose secure flag matches, ignoring the
ipv6 marker, and agrees with the JavaScript selection exactly when that first
secure-flag match carries no ipv6 marker. -/
theorem tiebreak_amended (secure : Bool) (servers : List Server)
    (h2 : 2 ≤ (servers.filter (serverMatches secure)).length) :
    (∃ s, servers.find? (serverMatches secure) = some s ∧
        JS.getSocketURL secure servers = Except.ok s.url) ∧
    (∀ t, servers.find? (fun u => u.secure == secure) = some t → t.ipv6 = none →
        TS.getSocketURL secure servers = JS.getSocketURL secure servers) := by
  constructor
  · have hne : servers.filter (serverMatches secure) ≠ [] := by
      intro h
      rw [h] at h2
      simp at h2
    obtain ⟨s, hs⟩ : ∃ s, servers.find? (serverMatches secure) = some s := by
      cases hfind : servers.find? (serverMatches secure) with
      | none =>
          exfalso
          apply hne
          rw [List.filter_eq_nil_iff]
          intro a ha
          have := List.find?_eq_none.mp hfind a ha
          simpa using this
      | some s => exact ⟨s, rfl⟩
    exact ⟨s, hs, by simp [JS.getSocketURL, scanServers_eq_find, hs]⟩
  · intro t ht hipv6
    have hfull := find_full_of_find_secure secure servers t ht hipv6
    simp [TS.getSocketURL, JS.getSocketURL, scanServers_eq_find, ht, hfull]

/-- Witness for `tiebreak_amended` at a concrete two-candidate list. -/
theorem tiebreak_amended_witness :
    2 ≤ (([⟨"wss-a", true, none⟩, ⟨"wss-b", true, none⟩] : List Server).filter
        (serverMatches true)).length ∧
    JS.getSocketURL true [⟨"wss-a", true, none⟩, ⟨"wss-b", true, none⟩]
      = Except.ok "wss-a" := by
  have h := tiebreak_amended true [⟨"wss-a", true, none⟩, ⟨"wss-b", true, none⟩]
    (by decide)
  obtain ⟨⟨s, hs, hok⟩, -⟩ := h
  have hfind : List.find? (serverMatches true)
      [(⟨"wss-a", true, none⟩ : Server), ⟨"wss-b", true, none⟩]
        = some ⟨"wss-a", true, none⟩ := by rfl
  rw [hfind] at hs
  have hs' : (⟨"wss-a", true, none⟩ : Server) = s := Option.some.inj hs
  refine ⟨by decide, ?_⟩
  rw [hok, ← hs']

/-- C2 counterexample: `cx2Servers` has zero full-match candidates (its only
candidate carries the ipv6 marker), yet the TypeScript `getSocketURL` does not
fail — it returns that candidate's URL, because it never checks the marker. -/
theorem no_endpoint_claim_counterexample :
    (cx2Servers.filter (serverMatches true)).length = 0 ∧
    TS.getSocketURL true cx2Servers = Except.ok "wss-a" := by
  exact ⟨by decide, by rfl⟩

/-- C2 (amended): the JavaScript `getSocketURL` fails with the
`NoSuitableEndpoint` error ("No suitable socket available") exactly when zero
candidates satisfy both `secure == config.secure` and absence of the ipv6
marker; the TypeScript `getSocketURL` fails with that error exactly when zero
candidates satisfy `secure == config.secure` alone (the ipv6 marker is
ignored). -/
theorem no_endpoint_amended (secure : Bool) (servers : List Server) :
    (JS.getSocketURL secure servers = Except.error "No suitable socket available"
        ↔ ∀ s ∈ servers, serverMatches secure s = false) ∧
    (TS.getSocketURL secure servers = Except.error "No suitable socket available"
        ↔ ∀ s ∈ servers, (s.secure == secure) = false) := by
  constructor
  · rw [JS.getSocketURL.eq_def, scanServers_eq_find]
    cases hfind : servers.find? (serverMatches secure) with
    | none =>
        simp only [Option.map_none', true_iff]
        intro s hs
        have := List.find?_eq_none.mp hfind s hs
        simpa using this
    | some s =>
        simp only [Option.map_some']
        constructor
        · intro h
          exact absurd h (by simp)
        · intro h
          have hmem := List.mem_of_find?_eq_some hfind
          have hp := List.find?_some hfind
          rw [h s hmem] at hp
          simp at hp
  · rw [TS.getSocketURL.eq_def]
    cases hfind : servers.find? (fun s => s.secure == secure) with
    | none =>
        simp only [true_iff]
        intro s hs
        have := List.find?_eq_none.mp hfind s hs
        simpa using this
    | some s =>
        constructor
        · intro h
          exact absurd h (by simp)
        · intro h
          have hmem := List.mem_of_find?_eq_some hfind
          have hp := List.find?_some hfind
          rw [h s hmem] at hp
          simp at hp

/-- C9: the JS constructor validates `chan`, `host`, `port`, `user` once at
construction: if any is absent construction fails, and a successfully
constructed connector holds exactly the supplied four fields (no later
operation re-validates them — none of the definitions below consults the
options again). -/
theorem constructor_validation :
    (∀ o : RawOptions,
        o.chan = none ∨ o.host = none ∨ o.port = none ∨ o.user = none →
        ∃ msg, JS.construct o = Except.error msg) ∧
    (∀ (o : RawOptions) (c : Connector), JS.construct o = Except.ok c →
        o.chan = some c.chan ∧ o.host = some c.host ∧
        o.port = some c.port ∧ o.user = some c.user) := by
  constructor
  · intro o h
    rcases h with h | h | h | h <;>
      · rw [JS.construct.eq_def]
        simp only [h, truthyS, truthyN]
        repeat' split
        all_goals first
          | exact ⟨_, rfl⟩
          | simp_all [truthyS, truthyN]
  · intro o c h
    rw [JS.construct.eq_def] at h
    by_cases h1 : truthyS o.chan = true
    · by_cases h2 : truthyS o.host = true
      · by_cases h3 : truthyN o.port = true
        · by_cases h4 : truthyS o.user = true
          · simp only [h1, h2, h3, h4, Bool.not_true, Bool.false_eq_true,
              if_false, reduceIte] at h
            have hc := Except.ok.inj h
            obtain ⟨sc, hsc⟩ : ∃ s, o.chan = some s := by
              cases hx : o.chan with
              | none => rw [hx] at h1; simp [truthyS] at h1
              | some v => exact ⟨v, rfl⟩
            obtain ⟨sh, hsh⟩ : ∃ s, o.host = some s := by
              cases hx : o.host with
              | none => rw [hx] at h2; simp [truthyS] at h2
              | some v => exact ⟨v, rfl⟩
            obtain ⟨sp, hsp⟩ : ∃ s, o.port = some s := by
              cases hx : o.port with
              | none => rw [hx] at h3; simp [truthyN] at h3
              | some v => exact ⟨v, rfl⟩
            obtain ⟨su, hsu⟩ : ∃ s, o.user = some s := by
              cases hx : o.user with
              | none => rw [hx] at h4; simp [truthyS] at h4
              | some v => exact ⟨v, rfl⟩
            subst hc
            simp [hsc, hsh, hsp, hsu]
          · simp [h1, h2, h3, h4] at h
        · simp [h1, h2, h3] at h
      · simp [h1, h2] at h
    · simp [h1] at h

/-- Witness for `constructor_validation`: a missing `user` fails, and a complete
option set yields a connector holding the four mandatory fields. -/
theorem constructor_validation_witness :
    (∃ msg, JS.construct
        ⟨some "chan", some "host", some 443, none, none, none, none⟩
          = Except.error msg) ∧
    (some "c" = some (Connector.chan ⟨"c", "h", 1, "u", true, none, none, "cytube-client"⟩)) := by
  constructor
  · exact constructor_validation.1
      ⟨some "chan", some "host", some 443, none, none, none, none⟩
      (Or.inr (Or.inr (Or.inr rfl)))
  · exact (constructor_validation.2
      ⟨some "c", some "h", some 1, some "u", none, none, none⟩
      ⟨"c", "h", 1, "u", true, none, none, "cytube-client"⟩ (by rfl)).1

/-- The connector field a successful JS construction gives `#secure`. -/
theorem js_construct_secure (ro : RawOptions) (c : Connector)
    (h : JS.construct ro = Except.ok c) : c.secure = ro.secure.getD true := by
  rw [JS.construct.eq_def] at h
  split at h
  · exact absurd h (by simp)
  · split at h
    · exact absurd h (by simp)
    · split at h
      · exact absurd h (by simp)
      · split at h
        · exact absurd h (by simp)
        · rw [← Except.ok.inj h]

/-- C10: when `secure` is omitted both constructors default it to `true`; the
lookup URL then uses the `https` scheme, endpoint selection (both
implementations) only accepts candidates with `secure = true`, and omitted
`pass`/`auth` default to `null`. -/
theorem secure_defaults (o : TS.Options) (ro : RawOptions)
    (ho : o.secure = none) (hp : o.pass = none) (ha : o.auth = none)
    (hro : ro.secure = none) :
    (TS.construct o).secure = true ∧
    (TS.construct o).pass = none ∧
    (TS.construct o).auth = none ∧
    socketConfigURL (TS.construct o)
      = "https://" ++ o.host ++ ":" ++ toString o.port
          ++ "/socketconfig/" ++ o.chan ++ ".json" ∧
    (∀ c, JS.construct ro = Except.ok c → c.secure = true) ∧
    (∀ servers u, TS.getSocketURL (TS.construct o).secure servers = Except.ok u →
        ∃ s ∈ servers, s.secure = true ∧ s.url = u) ∧
    (∀ servers u, JS.getSocketURL (TS.construct o).secure servers = Except.ok u →
        ∃ s ∈ servers, s.secure = true ∧ s.ipv6 = none ∧ s.url = u) := by
  have hsec : (TS.construct o).secure = true := by simp [TS.construct, ho]
  refine ⟨hsec, by simp [TS.construct, hp], by simp [TS.construct, ha],
    by simp [socketConfigURL, hsec, TS.construct, ho], ?_, ?_, ?_⟩
  · intro c h
    rw [js_construct_secure ro c h, hro]
    rfl
  · intro servers u h
    rw [hsec, TS.getSocketURL.eq_def] at h
    cases hfind : servers.find? (fun s => s.secure == true) with
    | none => rw [hfind] at h; exact absurd h (by simp)
    | some s =>
        rw [hfind] at h
        refine ⟨s, List.mem_of_find?_eq_some hfind, ?_, Except.ok.inj h⟩
        have := List.find?_some hfind
        simpa using this
  · intro servers u h
    rw [hsec, JS.getSocketURL.eq_def, scanServers_eq_find] at h
    cases hfind : servers.find? (serverMatches true) with
    | none => rw [hfind] at h; exact absurd h (by simp)
    | some s =>
        rw [hfind] at h
        have hm := List.find?_some hfind
        simp only [serverMatches, Bool.and_eq_true, beq_iff_eq] at hm
        refine ⟨s, List.mem_of_find?_eq_some hfind, hm.1, hm.2, ?_⟩
        simpa using h

/-- Witness for `secure_defaults` at a concrete option record and server list. -/
theorem secure_defaults_witness :
    (TS.construct ⟨"c", "h", "u", 443, none, none, none, none⟩).secure = true ∧
    (∃ s ∈ ([⟨"wss-a", true, none⟩] : List Server),
        s.secure = true ∧ s.url = "wss-a") := by
  have h := secure_defaults ⟨"c", "h", "u", 443, none, none, none, none⟩
    ⟨some "c", some "h", some 443, some "u", none, none, none⟩ rfl rfl rfl rfl
  refine ⟨h.1, ?_⟩
  apply h.2.2.2.2.2.1 [⟨"wss-a", true, none⟩] "wss-a"
  rfl

/-- C7: every Command Facade method fails with the `NotConnected` error
("Not connected") and writes nothing when `#socket` is `null`, and with a live
socket writes exactly one frame carrying the caller-supplied payload verbatim. -/
theorem command_facade_spec (m b p2 o2 pe ba ub ld uid uid2 : String) (pos : Int)
    (ov pv : Val) :
    (TS.chat none m = Except.error "Not connected" ∧
      TS.chat (some ()) m = Except.ok (Output.send "chatMsg" [Val.vStr m])) ∧
    (TS.pm none p2 = Except.error "Not connected" ∧
      TS.pm (some ()) p2 = Except.ok (Output.send "pm" [Val.vStr p2])) ∧
    (TS.getUserList none = Except.error "Not connected" ∧
      TS.getUserList (some ()) = Except.ok (Output.send "userlist" [])) ∧
    (TS.createPoll none o2 = Except.error "Not connected" ∧
      TS.createPoll (some ()) o2 = Except.ok (Output.send "newPoll" [Val.vStr o2])) ∧
    (TS.closePoll none = Except.error "Not connected" ∧
      TS.closePoll (some ()) = Except.ok (Output.send "closePoll" [])) ∧
    (TS.sendOptions none ov = Except.error "Not connected" ∧
      TS.sendOptions (some ()) ov = Except.ok (Output.send "setOptions" [ov])) ∧
    (TS.sendPermissions none pv = Except.error "Not connected" ∧
      TS.sendPermissions (some ()) pv = Except.ok (Output.send "setPermissions" [pv])) ∧
    (TS.sendBanner none b = Except.error "Not connected" ∧
      TS.sendBanner (some ()) b = Except.ok (Output.send "setMotd" [Val.vStr b])) ∧
    (TS.bans none = Except.error "Not connected" ∧
      TS.bans (some ()) = Except.ok (Output.send "requestBanlist" [])) ∧
    (TS.unban none ub = Except.error "Not connected" ∧
      TS.unban (some ()) ub = Except.ok (Output.send "unban" [Val.vStr ub])) ∧
    (TS.leader none ld = Except.error "Not connected" ∧
      TS.leader (some ()) ld = Except.ok (Output.send "assignLeader" [Val.vStr ld])) ∧
    (TS.deleteVideo none uid = Except.error "Not connected" ∧
      TS.deleteVideo (some ()) uid = Except.ok (Output.send "delete" [Val.vStr uid])) ∧
    (TS.move none pos = Except.error "Not connected" ∧
      TS.move (some ()) pos = Except.ok (Output.send "moveMedia" [Val.vNum pos])) ∧
    (TS.jump none uid2 = Except.error "Not connected" ∧
      TS.jump (some ()) uid2 = Except.ok (Output.send "jumpTo" [Val.vStr uid2])) ∧
    (TS.shuffle none = Except.error "Not connected" ∧
      TS.shuffle (some ()) = Except.ok (Output.send "shufflePlaylist" [])) ∧
    (TS.playlist none = Except.error "Not connected" ∧
      TS.playlist (some ()) = Except.ok (Output.send "requestPlaylist" [])) ∧
    (pe = pe ∧ ba = ba) := by
  repeat' constructor

theorem invoke_pass (cs : ClientState) (n : String) (args : List Val) (a : Act) :
    ((invoke cs n args a).1).pass = cs.pass := by
  cases a <;> simp only [invoke] <;> repeat' split
  all_goals rfl

theorem invoke_user (cs : ClientState) (n : String) (args : List Val) (a : Act) :
    ((invoke cs n args a).1).user = cs.user := by
  cases a <;> simp only [invoke] <;> repeat' split
  all_goals rfl

theorem invoke_auth (cs : ClientState) (n : String) (args : List Val) (a : Act) :
    ((invoke cs n args a).1).auth = cs.auth := by
  cases a <;> simp only [invoke] <;> repeat' split
  all_goals rfl

theorem invoke_listeners (cs : ClientState) (n : String) (args : List Val)
    (a : Act) :
    ∃ ext, ((invoke cs n args a).1).listeners = cs.listeners ++ ext ∧
      (ext = [] ∨ ext = relayListeners) := by
  cases a with
  | connectAct => exact ⟨relayListeners, rfl, Or.inr rfl⟩
  | passwordAct =>
      cases h : cs.pass <;> exact ⟨[], by simp [invoke, h], Or.inl rfl⟩
  | loginAct =>
      cases args with
      | nil => exact ⟨[], by simp [invoke], Or.inl rfl⟩
      | cons v vs =>
          by_cases h : successOf v = true <;>
            exact ⟨[], by simp [invoke, h], Or.inl rfl⟩
  | relayAct => exact ⟨[], by simp [invoke], Or.inl rfl⟩
  | errAct => exact ⟨[], by simp [invoke], Or.inl rfl⟩
  | rankAct => exact ⟨[], by simp [invoke], Or.inl rfl⟩

theorem invoke_armed_mono (cs : ClientState) (n : String) (args : List Val)
    (a : Act) (h : cs.killswitchArmed = false) :
    ((invoke cs n args a).1).killswitchArmed = false := by
  cases a <;> simp only [invoke] <;> repeat' split
  all_goals simp [h]

theorem invoke_armed_keep (cs : ClientState) (n : String) (args : List Val)
    (a : Act) (h : a ≠ Act.loginAct) :
    ((invoke cs n args a).1).killswitchArmed = cs.killswitchArmed := by
  cases a <;> simp only [invoke] <;> repeat' split
  all_goals first | rfl | exact absurd rfl h

theorem invoke_armed_login (cs : ClientState) (n : String) (v : Val)
    (args : List Val) (hv : successOf v = true) :
    ((invoke cs n (v :: args) Act.loginAct).1).killswitchArmed = false := by
  simp [invoke, hv]

theorem runMatched_pass (n : String) (args : List Val) (cs : ClientState)
    (acts : List Act) : ((runMatched n args cs acts).1).pass = cs.pass := by
  induction acts generalizing cs with
  | nil => rfl
  | cons a rest ih => simp [runMatched, ih, invoke_pass]

theorem runMatched_user (n : String) (args : List Val) (cs : ClientState)
    (acts : List Act) : ((runMatched n args cs acts).1).user = cs.user := by
  induction acts generalizing cs with
  | nil => rfl
  | cons a rest ih => simp [runMatched, ih, invoke_user]

theorem runMatched_auth (n : String) (args : List Val) (cs : ClientState)
    (acts : List Act) : ((runMatched n args cs acts).1).auth = cs.auth := by
  induction acts generalizing cs with
  | nil => rfl
  | cons a rest ih => simp [runMatched, ih, invoke_auth]

/-- The listener registry only ever grows by relay listeners while handler
bodies run. -/
theorem runMatched_listeners (n : String) (args : List Val) (cs : ClientState)
    (acts : List Act) :
    ∃ ext, ((runMatched n args cs acts).1).listeners = cs.listeners ++ ext ∧
      ∀ l ∈ ext, l ∈ relayListeners := by
  induction acts generalizing cs with
  | nil => exact ⟨[], by simp [runMatched], by simp⟩
  | cons a rest ih =>
      obtain ⟨e1, he1, hm1⟩ := invoke_listeners cs n args a
      obtain ⟨e2, he2, hm2⟩ := ih (invoke cs n args a).1
      refine ⟨e1 ++ e2, ?_, ?_⟩
      · simp [runMatched, he2, he1]
      · intro l hl
        rcases List.mem_append.mp hl with h | h
        · rcases hm1 with rfl | rfl
          · simp at h
          · exact h
        · exact hm2 l h

theorem runMatched_armed_mono (n : String) (args : List Val) (cs : ClientState)
    (acts : List Act) (h : cs.killswitchArmed = false) :
    ((runMatched n args cs acts).1).killswitchArmed = false := by
  induction acts generalizing cs with
  | nil => exact h
  | cons a rest ih =>
      simp only [runMatched]
      exact ih _ (invoke_armed_mono cs n args a h)

theorem runMatched_armed_keep (n : String) (args : List Val) (cs : ClientState)
    (acts : List Act) (h : Act.loginAct ∉ acts) :
    ((runMatched n args cs acts).1).killswitchArmed = cs.killswitchArmed := by
  induction acts generalizing cs with
  | nil => rfl
  | cons a rest ih =>
      simp only [runMatched]
      rw [ih _ (fun hmem => h (List.mem_cons_of_mem a hmem))]
      exact invoke_armed_keep cs n args a (fun ha => h (ha ▸ List.mem_cons_self a rest))

theorem runMatched_armed_login (n : String) (v : Val) (args : List Val)
    (cs : ClientState) (acts : List Act) (hmem : Act.loginAct ∈ acts)
    (hv : successOf v = true) :
    ((runMatched n (v :: args) cs acts).1).killswitchArmed = false := by
  induction acts generalizing cs with
  | nil => simp at hmem
  | cons a rest ih =>
      simp only [runMatched]
      by_cases ha : a = Act.loginAct
      · subst ha
        by_cases hr : Act.loginAct ∈ rest
        · exact ih _ hr
        · exact runMatched_armed_mono _ _ _ _ (invoke_armed_login cs n v args hv)
      · rcases List.mem_cons.mp hmem with h | h
        · exact absurd h.symm ha
        · exact ih _ h

theorem run_append (cs : ClientState) (l1 l2 : List Ev) :
    run cs (l1 ++ l2)
      = ((run (run cs l1).1 l2).1, (run cs l1).2 ++ (run (run cs l1).1 l2).2) := by
  induction l1 generalizing cs with
  | nil => simp [run]
  | cons e rest ih => simp [run, ih]

theorem handlers_nodup : handlers.Nodup := by decide

theorem connect_not_handler : "connect" ∉ handlers := by decide

theorem connected_not_handler : "connected" ∉ handlers := by decide

theorem started_not_handler : "started" ∉ handlers := by decide

theorem started_not_known : "started" ∉ knownNames := by decide

theorem deliver_pass (cs : ClientState) (e : Ev) :
    ((deliver cs e).1).pass = cs.pass := by
  cases e with
  | frame n args => exact runMatched_pass n args _ _
  | timer =>
      by_cases h : cs.killswitchArmed = true <;> simp [deliver, h]

theorem deliver_user (cs : ClientState) (e : Ev) :
    ((deliver cs e).1).user = cs.user := by
  cases e with
  | frame n args => exact runMatched_user n args _ _
  | timer =>
      by_cases h : cs.killswitchArmed = true <;> simp [deliver, h]

theorem deliver_auth (cs : ClientState) (e : Ev) :
    ((deliver cs e).1).auth = cs.auth := by
  cases e with
  | frame n args => exact runMatched_auth n args _ _
  | timer =>
      by_cases h : cs.killswitchArmed = true <;> simp [deliver, h]

theorem deliver_armed_mono (cs : ClientState) (e : Ev)
    (h : cs.killswitchArmed = false) :
    ((deliver cs e).1).killswitchArmed = false := by
  cases e with
  | frame n args => exact runMatched_armed_mono n args _ _ h
  | timer => simp [deliver, h]

theorem run_pass (cs : ClientState) (evs : List Ev) :
    ((run cs evs).1).pass = cs.pass := by
  induction evs generalizing cs with
  | nil => rfl
  | cons e rest ih => simp [run, ih, deliver_pass]

theorem run_user (cs : ClientState) (evs : List Ev) :
    ((run cs evs).1).user = cs.user := by
  induction evs generalizing cs with
  | nil => rfl
  | cons e rest ih => simp [run, ih, deliver_user]

theorem run_auth (cs : ClientState) (evs : List Ev) :
    ((run cs evs).1).auth = cs.auth := by
  induction evs generalizing cs with
  | nil => rfl
  | cons e rest ih => simp [run, ih, deliver_auth]

theorem run_armed_mono (cs : ClientState) (evs : List Ev)
    (h : cs.killswitchArmed = false) :
    ((run cs evs).1).killswitchArmed = false := by
  induction evs generalizing cs with
  | nil => exact h
  | cons e rest ih =>
      simp only [run]
      exact ih _ (deliver_armed_mono cs e h)

/-- Consumed one-shot listeners: firing an event name empties the count of a
handshake behaviour bound to that name, and leaves it unchanged otherwise. -/
theorem removeOnce_actCount (a : Act) (nm n : String) (ls : List Listener)
    (h : actNamedOnce a nm ls) :
    actCount a (removeOnce n ls) = if n = nm then 0 else actCount a ls := by
  by_cases hn : n = nm
  · rw [if_pos hn]
    subst hn
    unfold actCount removeOnce
    rw [List.countP_eq_zero]
    intro l hl hact
    have hmem := List.mem_filter.mp hl
    have ha : l.act = a := by simpa using hact
    obtain ⟨hname, honce⟩ := h l hmem.1 ha
    have hcond : (l.name == n && l.once) = true := by simp [hname, honce]
    have hk := hmem.2
    rw [hcond] at hk
    simp at hk
  · rw [if_neg hn]
    unfold actCount removeOnce
    rw [List.countP_filter]
    apply List.countP_congr
    intro l hl
    constructor
    · intro hc
      exact ((Bool.and_eq_true _ _).mp hc).1
    · intro hc
      have ha : l.act = a := by simpa using hc
      obtain ⟨hname, -⟩ := h l hl ha
      have hne : (l.name == n) = false := by
        rw [hname, beq_eq_false_iff_ne]
        exact fun hh => hn hh.symm
      simp [hc, hne]

/-- Count of a handshake behaviour among the bodies fired by an event. -/
theorem matched_actCount (a : Act) (nm n : String) (ls : List Listener)
    (h : actNamedOnce a nm ls) :
    (matchedActs n ls).countP (fun b => b == a)
      = if n = nm then actCount a ls else 0 := by
  unfold matchedActs
  rw [List.countP_map]
  by_cases hn : n = nm
  · rw [if_pos hn]
    subst hn
    unfold actCount
    rw [List.countP_filter]
    apply List.countP_congr
    intro l hl
    simp only [Function.comp]
    constructor
    · intro hc
      exact ((Bool.and_eq_true _ _).mp hc).1
    · intro hc
      have ha : l.act = a := by simpa using hc
      obtain ⟨hname, -⟩ := h l hl ha
      simp [hc, hname]
  · rw [if_neg hn, List.countP_filter, List.countP_eq_zero]
    intro l hl hc
    simp only [Function.comp] at hc
    obtain ⟨h1, h2⟩ := (Bool.and_eq_true _ _).mp hc
    have ha : l.act = a := by simpa using h1
    obtain ⟨hname, -⟩ := h l hl ha
    rw [hname] at h2
    have h2' : nm = n := by simpa using h2
    exact hn h2'.symm

/-- Every body fired by an event comes from a listener of that name. -/
theorem matched_mem (n : String) (ls : List Listener) (b : Act)
    (hb : b ∈ matchedActs n ls) : ∃ l ∈ ls, l.name = n ∧ l.act = b := by
  obtain ⟨l, hl, hact⟩ := List.mem_map.mp hb
  have hmem := List.mem_filter.mp hl
  exact ⟨l, hmem.1, by simpa using hmem.2, hact⟩

theorem relayListeners_actCount (a : Act) (h : a ≠ Act.relayAct) :
    actCount a relayListeners = 0 := by
  unfold actCount
  rw [List.countP_eq_zero]
  intro l hl hc
  obtain ⟨f, -, rfl⟩ := List.mem_map.mp hl
  have hc' : Act.relayAct = a := by simpa using hc
  exact h hc'.symm

theorem relayCount_relayListeners (f : String) (hf : f ∈ handlers) :
    relayCount f relayListeners = 1 := by
  unfold relayCount relayListeners
  rw [List.countP_map]
  have hc : List.countP ((fun l => l.name == f && l.act == Act.relayAct) ∘
      fun g => ({ name := g, once := false, act := Act.relayAct } : Listener))
        handlers
      = List.countP (fun g => g == f) handlers := by
    apply List.countP_congr
    intro g hg
    simp [Function.comp]
  rw [hc]
  exact List.count_eq_one_of_mem handlers_nodup hf

theorem mem_relayListeners (l : Listener) (hl : l ∈ relayListeners) :
    l.once = false ∧ l.act = Act.relayAct ∧ l.name ∈ handlers := by
  obtain ⟨f, hf, rfl⟩ := List.mem_map.mp hl
  exact ⟨rfl, rfl, hf⟩

theorem runMatched_actCount (n : String) (args : List Val) (cs : ClientState)
    (acts : List Act) (a : Act) (h : a ≠ Act.relayAct) :
    actCount a ((runMatched n args cs acts).1).listeners
      = actCount a cs.listeners := by
  obtain ⟨ext, hext, hm⟩ := runMatched_listeners n args cs acts
  rw [hext]
  unfold actCount
  rw [List.countP_append]
  have hz : ext.countP (fun l => l.act == a) = 0 := by
    rw [List.countP_eq_zero]
    intro l hl hc
    have hrel := (mem_relayListeners l (hm l hl)).2.1
    have hc' : l.act = a := by simpa using hc
    exact h (hc'.symm.trans hrel)
  rw [hz]
  rfl

theorem deliver_actCount (a : Act) (nm : String) (cs : ClientState) (e : Ev)
    (h : actNamedOnce a nm cs.listeners) (hrel : a ≠ Act.relayAct) :
    actCount a ((deliver cs e).1).listeners
      = if isFrameNamed nm e then 0 else actCount a cs.listeners := by
  cases e with
  | timer =>
      by_cases harm : cs.killswitchArmed = true <;>
        simp [deliver, harm, isFrameNamed]
  | frame n args =>
      have hrun := runMatched_actCount n args
        { cs with listeners := removeOnce n cs.listeners }
        (matchedActs n cs.listeners) a hrel
      simp only [deliver]
      rw [hrun]
      simp only [removeOnce_actCount a nm n cs.listeners h, isFrameNamed]
      by_cases hn : n = nm
      · simp [hn]
      · have : (n == nm) = false := by
          rw [beq_eq_false_iff_ne]
          exact hn
        simp [hn, this]

theorem actCount_zero_run (a : Act) (cs : ClientState) (evs : List Ev)
    (nm : String) (hnm : actNamedOnce a nm cs.listeners)
    (hrel : a ≠ Act.relayAct) (h : actCount a cs.listeners = 0) :
    actCount a ((run cs evs).1).listeners = 0 := by
  induction evs generalizing cs with
  | nil => exact h
  | cons e rest ih =>
      simp only [run]
      have hz : actCount a ((deliver cs e).1).listeners = 0 := by
        rw [deliver_actCount a nm cs e hnm hrel, h]
        split <;> rfl
      apply ih
      · intro l hl hact
        exfalso
        rw [actCount, List.countP_eq_zero] at hz
        exact hz l hl (by simp [hact])
      · exact hz

theorem actNamedOnce_deliver (a : Act) (nm : String) (cs : ClientState) (e : Ev)
    (h : actNamedOnce a nm cs.listeners) (hrel : a ≠ Act.relayAct) :
    actNamedOnce a nm ((deliver cs e).1).listeners := by
  cases e with
  | timer =>
      by_cases harm : cs.killswitchArmed = true <;> simp [deliver, harm] <;> exact h
  | frame n args =>
      obtain ⟨ext, hext, hm⟩ := runMatched_listeners n args
        { cs with listeners := removeOnce n cs.listeners }
        (matchedActs n cs.listeners)
      simp only [deliver]
      rw [hext]
      intro l hl hact
      rcases List.mem_append.mp hl with hL | hR
      · exact h l (List.mem_of_mem_filter hL) hact
      · exact absurd (hact.symm.trans (mem_relayListeners l (hm l hR)).2.1) hrel

theorem actNamedOnce_run (a : Act) (nm : String) (cs : ClientState)
    (evs : List Ev) (h : actNamedOnce a nm cs.listeners)
    (hrel : a ≠ Act.relayAct) :
    actNamedOnce a nm ((run cs evs).1).listeners := by
  induction evs generalizing cs with
  | nil => exact h
  | cons e rest ih =>
      simp only [run]
      exact ih _ (actNamedOnce_deliver a nm cs e h hrel)

theorem handlers_subset_known (f : String) (hf : f ∈ handlers) :
    f ∈ knownNames := by
  unfold knownNames
  simp [hf]

theorem WF_deliver (cs : ClientState) (e : Ev) (h : WF cs.listeners) :
    WF ((deliver cs e).1).listeners := by
  cases e with
  | timer =>
      by_cases harm : cs.killswitchArmed = true <;> simp [deliver, harm] <;> exact h
  | frame n args =>
      obtain ⟨ext, hext, hm⟩ := runMatched_listeners n args
        { cs with listeners := removeOnce n cs.listeners }
        (matchedActs n cs.listeners)
      simp only [deliver]
      rw [hext]
      obtain ⟨h1, h2, h3, h4, h5, h6, h7⟩ := h
      refine ⟨?_, ?_, ?_, ?_, ?_, ?_, ?_⟩
      · intro l hl
        rcases List.mem_append.mp hl with hL | hR
        · exact h1 l (List.mem_of_mem_filter hL)
        · exact handlers_subset_known _ (mem_relayListeners l (hm l hR)).2.2
      · intro l hl hact
        rcases List.mem_append.mp hl with hL | hR
        · exact h2 l (List.mem_of_mem_filter hL) hact
        · exact absurd (hact.symm.trans (mem_relayListeners l (hm l hR)).2.1)
            (by decide)
      · intro l hl hact
        rcases List.mem_append.mp hl with hL | hR
        · exact h3 l (List.mem_of_mem_filter hL) hact
        · exact absurd (hact.symm.trans (mem_relayListeners l (hm l hR)).2.1)
            (by decide)
      · intro l hl hact
        rcases List.mem_append.mp hl with hL | hR
        · exact h4 l (List.mem_of_mem_filter hL) hact
        · exact absurd (hact.symm.trans (mem_relayListeners l (hm l hR)).2.1)
            (by decide)
      · intro l hl hact
        rcases List.mem_append.mp hl with hL | hR
        · exact h5 l (List.mem_of_mem_filter hL) hact
        · exact absurd (hact.symm.trans (mem_relayListeners l (hm l hR)).2.1)
            (by decide)
      · intro l hl hact
        rcases List.mem_append.mp hl with hL | hR
        · exact h6 l (List.mem_of_mem_filter hL) hact
        · obtain ⟨ho, -, hn⟩ := mem_relayListeners l (hm l hR)
          exact ⟨ho, hn⟩
      · intro l hl hact
        rcases List.mem_append.mp hl with hL | hR
        · exact h7 l (List.mem_of_mem_filter hL) hact
        · exact absurd (hact.symm.trans (mem_relayListeners l (hm l hR)).2.1)
            (by decide)

theorem WF_run (cs : ClientState) (evs : List Ev) (h : WF cs.listeners) :
    WF ((run cs evs).1).listeners := by
  induction evs generalizing cs with
  | nil => exact h
  | cons e rest ih =>
      simp only [run]
      exact ih _ (WF_deliver cs e h)

theorem WF_init : WF initListeners := by
  unfold WF actNamedOnce initListeners knownNames handlers
  refine ⟨?_, ?_, ?_, ?_, ?_, ?_, ?_⟩ <;> decide

theorem deliver_mem (cs : ClientState) (e : Ev) (l : Listener)
    (hl : l ∈ cs.listeners) (h : isFrameNamed l.name e = false) :
    l ∈ ((deliver cs e).1).listeners := by
  cases e with
  | timer =>
      by_cases harm : cs.killswitchArmed = true <;> simp [deliver, harm] <;> exact hl
  | frame n args =>
      obtain ⟨ext, hext, -⟩ := runMatched_listeners n args
        { cs with listeners := removeOnce n cs.listeners }
        (matchedActs n cs.listeners)
      simp only [deliver]
      rw [hext]
      apply List.mem_append_left
      apply List.mem_filter.mpr
      refine ⟨hl, ?_⟩
      have hne : (l.name == n) = false := by
        simp only [isFrameNamed] at h
        rw [beq_eq_false_iff_ne]
        intro hq
        rw [hq] at h
        simp at h
      simp [hne]

theorem run_mem (cs : ClientState) (evs : List Ev) (l : Listener)
    (hl : l ∈ cs.listeners) (h : ∀ e ∈ evs, isFrameNamed l.name e = false) :
    l ∈ ((run cs evs).1).listeners := by
  induction evs generalizing cs with
  | nil => exact hl
  | cons e rest ih =>
      simp only [run]
      exact ih _ (deliver_mem cs e l hl (h e (List.mem_cons_self e rest)))
        (fun e2 he2 => h e2 (List.mem_cons_of_mem e he2))

theorem countErr_append (k : ErrKind) (l1 l2 : List Output) :
    countErr k (l1 ++ l2) = countErr k l1 + countErr k l2 :=
  List.countP_append ..

theorem countBus_append (n : String) (l1 l2 : List Output) :
    countBus n (l1 ++ l2) = countBus n l1 + countBus n l2 :=
  List.countP_append ..

theorem countSend_append (f : String) (l1 l2 : List Output) :
    countSend f (l1 ++ l2) = countSend f l1 + countSend f l2 :=
  List.countP_append ..

theorem matched_not_mem (a : Act) (nm n : String) (ls : List Listener)
    (h : actNamedOnce a nm ls) (hn : n ≠ nm) : a ∉ matchedActs n ls := by
  intro hmem
  have hc := matched_actCount a nm n ls h
  rw [if_neg hn, List.countP_eq_zero] at hc
  exact hc a hmem (by simp)

theorem mem_matchedActs (l : Listener) (n : String) (ls : List Listener)
    (hl : l ∈ ls) (hn : l.name = n) : l.act ∈ matchedActs n ls := by
  unfold matchedActs
  exact List.mem_map_of_mem _ (List.mem_filter.mpr ⟨hl, by simp [hn]⟩)

theorem deliver_armed_keep (cs : ClientState) (e : Ev)
    (hlog : actNamedOnce Act.loginAct "login" cs.listeners)
    (h1 : isFrameNamed "login" e = false) (h2 : isTimer e = false) :
    ((deliver cs e).1).killswitchArmed = cs.killswitchArmed := by
  cases e with
  | timer => simp [isTimer] at h2
  | frame n args =>
      have hn : n ≠ "login" := by
        simp only [isFrameNamed] at h1
        exact fun hq => by simp [hq] at h1
      simp only [deliver]
      rw [runMatched_armed_keep n args _ _
        (matched_not_mem Act.loginAct "login" n cs.listeners hlog hn)]

theorem run_armed_keep (cs : ClientState) (evs : List Ev)
    (hlog : actNamedOnce Act.loginAct "login" cs.listeners)
    (h : ∀ e ∈ evs, isFrameNamed "login" e = false ∧ isTimer e = false) :
    ((run cs evs).1).killswitchArmed = cs.killswitchArmed := by
  induction evs generalizing cs with
  | nil => rfl
  | cons e rest ih =>
      simp only [run]
      rw [ih _ (actNamedOnce_deliver Act.loginAct "login" cs e hlog (by decide))
        (fun e2 he2 => h e2 (List.mem_cons_of_mem e he2))]
      exact deliver_armed_keep cs e hlog
        (h e (List.mem_cons_self e rest)).1 (h e (List.mem_cons_self e rest)).2

theorem deliver_login_success (cs : ClientState) (v : Val) (args : List Val)
    (hmem : ({ name := "login", once := true, act := Act.loginAct } : Listener)
      ∈ cs.listeners)
    (hv : successOf v = true) :
    ((deliver cs (Ev.frame "login" (v :: args))).1).killswitchArmed = false := by
  simp only [deliver]
  exact runMatched_armed_login "login" v args _ _
    (mem_matchedActs _ "login" cs.listeners hmem rfl) hv

theorem invoke_no_HT (cs : ClientState) (n : String) (args : List Val)
    (a : Act) : countErr ErrKind.HandshakeTimeout (invoke cs n args a).2 = 0 := by
  cases a <;> simp only [invoke] <;> repeat' split
  all_goals simp [countErr]

theorem runMatched_no_HT (n : String) (args : List Val) (cs : ClientState)
    (acts : List Act) :
    countErr ErrKind.HandshakeTimeout (runMatched n args cs acts).2 = 0 := by
  induction acts generalizing cs with
  | nil => rfl
  | cons a rest ih =>
      simp only [runMatched]
      rw [countErr_append, invoke_no_HT, ih]

theorem deliver_frame_no_HT (cs : ClientState) (n : String) (args : List Val) :
    countErr ErrKind.HandshakeTimeout (deliver cs (Ev.frame n args)).2 = 0 :=
  runMatched_no_HT n args _ _

theorem run_no_HT_of_no_timer (cs : ClientState) (evs : List Ev)
    (h : ∀ e ∈ evs, isTimer e = false) :
    countErr ErrKind.HandshakeTimeout (run cs evs).2 = 0 := by
  induction evs generalizing cs with
  | nil => rfl
  | cons e rest ih =>
      simp only [run]
      rw [countErr_append, ih _ (fun e2 he2 => h e2 (List.mem_cons_of_mem e he2))]
      cases e with
      | frame n args => rw [deliver_frame_no_HT]
      | timer => simp [isTimer] at h

theorem run_no_HT_of_unarmed (cs : ClientState) (evs : List Ev)
    (h : cs.killswitchArmed = false) :
    countErr ErrKind.HandshakeTimeout (run cs evs).2 = 0 := by
  induction evs generalizing cs with
  | nil => rfl
  | cons e rest ih =>
      simp only [run]
      rw [countErr_append, ih _ (deliver_armed_mono cs e h)]
      cases e with
      | frame n args => rw [deliver_frame_no_HT]
      | timer => simp [deliver, h, countErr]

theorem loginListener_mem_init :
    (⟨"login", true, Act.loginAct⟩ : Listener) ∈ initListeners := by decide

theorem actNamedOnce_login_init :
    actNamedOnce Act.loginAct "login" initListeners := WF_init.2.2.1

/-- C3: the 60-second killswitch is cancelled on reaching Ready and fires at
most once.  First part: if a successful login-result frame is processed before
any timer expiry (and before any other login frame consumes the one-shot
handler), then no `HandshakeTimeout` error is ever emitted, no matter what
happens afterwards — including later timer expiries.  Second part: if the
timer expires before any login-result frame, the `HandshakeTimeout` failure is
emitted exactly once, regardless of all later frames. -/
theorem handshake_timer_spec :
    (∀ (pass : Option String) (user : String) (auth : Option String)
        (pre post : List Ev) (v : Val) (args : List Val),
        (∀ e ∈ pre, isFrameNamed "login" e = false ∧ isTimer e = false) →
        successOf v = true →
        countErr ErrKind.HandshakeTimeout
          (run (initState pass user auth)
            (pre ++ Ev.frame "login" (v :: args) :: post)).2 = 0) ∧
    (∀ (pass : Option String) (user : String) (auth : Option String)
        (pre post : List Ev),
        (∀ e ∈ pre, isFrameNamed "login" e = false ∧ isTimer e = false) →
        countErr ErrKind.HandshakeTimeout
          (run (initState pass user auth) (pre ++ Ev.timer :: post)).2 = 1) := by
  constructor
  · intro pass user auth pre post v args hpre hv
    rw [run_append, countErr_append]
    have hpre0 : countErr ErrKind.HandshakeTimeout
        (run (initState pass user auth) pre).2 = 0 :=
      run_no_HT_of_no_timer _ _ (fun e he => (hpre e he).2)
    rw [hpre0]
    simp only [run]
    rw [countErr_append, deliver_frame_no_HT]
    have hmem : ({ name := "login", once := true, act := Act.loginAct } :
        Listener) ∈ ((run (initState pass user auth) pre).1).listeners := by
      apply run_mem _ _ _ loginListener_mem_init
      intro e he
      exact (hpre e he).1
    have harm := deliver_login_success _ v args hmem hv
    rw [run_no_HT_of_unarmed _ _ harm]
  · intro pass user auth pre post hpre
    rw [run_append, countErr_append]
    have hpre0 : countErr ErrKind.HandshakeTimeout
        (run (initState pass user auth) pre).2 = 0 :=
      run_no_HT_of_no_timer _ _ (fun e he => (hpre e he).2)
    rw [hpre0]
    simp only [run]
    rw [countErr_append]
    have harm : ((run (initState pass user auth) pre).1).killswitchArmed
        = true := by
      rw [run_armed_keep _ _ actNamedOnce_login_init hpre]
      rfl
    have hdel : (deliver (run (initState pass user auth) pre).1 Ev.timer).2
        = [Output.busError ErrKind.HandshakeTimeout] := by
      simp [deliver, harm]
    rw [hdel]
    have hpost : countErr ErrKind.HandshakeTimeout
        (run (deliver (run (initState pass user auth) pre).1 Ev.timer).1
          post).2 = 0 := by
      apply run_no_HT_of_unarmed
      simp [deliver, harm]
    rw [hpost]
    rfl

/-- Witness for `handshake_timer_spec` on concrete one-event traces. -/
theorem handshake_timer_spec_witness :
    countErr ErrKind.HandshakeTimeout
      (run (initState none "u" none)
        ([] ++ Ev.frame "login" (Val.vLogin true :: []) :: [])).2 = 0 ∧
    countErr ErrKind.HandshakeTimeout
      (run (initState none "u" none) ([] ++ Ev.timer :: [])).2 = 1 :=
  ⟨handshake_timer_spec.1 none "u" none [] [] (Val.vLogin true) []
      (by intro e he; simp at he) rfl,
    handshake_timer_spec.2 none "u" none [] [] (by intro e he; simp at he)⟩

theorem countOut_append (o : Output) (l1 l2 : List Output) :
    countOut o (l1 ++ l2) = countOut o l1 + countOut o l2 :=
  List.countP_append ..

theorem invoke_countPR_none (cs : ClientState) (n : String) (args : List Val)
    (a : Act) (hp : cs.pass = none) :
    countErr ErrKind.PasswordRequired (invoke cs n args a).2
      = if a = Act.passwordAct then 1 else 0 := by
  cases a <;> simp only [invoke, hp] <;> repeat' split
  all_goals simp_all [countErr]

theorem invoke_countPR_some (cs : ClientState) (n : String) (args : List Val)
    (a : Act) (p : String) (hp : cs.pass = some p) :
    countErr ErrKind.PasswordRequired (invoke cs n args a).2 = 0 := by
  cases a <;> simp only [invoke, hp] <;> repeat' split
  all_goals simp_all [countErr]

theorem invoke_countCP_none (cs : ClientState) (n : String) (args : List Val)
    (a : Act) (hp : cs.pass = none) :
    countSend "channelPassword" (invoke cs n args a).2 = 0 := by
  cases a <;> simp only [invoke, hp] <;> repeat' split
  all_goals simp_all [countSend]

theorem invoke_countCP_some (cs : ClientState) (n : String) (args : List Val)
    (a : Act) (p : String) (hp : cs.pass = some p) :
    countOut (Output.send "channelPassword" [Val.vStr p]) (invoke cs n args a).2
      = if a = Act.passwordAct then 1 else 0 := by
  cases a <;> simp only [invoke, hp] <;> repeat' split
  all_goals simp_all [countOut]

theorem runMatched_countPR_none (n : String) (args : List Val)
    (cs : ClientState) (acts : List Act) (hp : cs.pass = none) :
    countErr ErrKind.PasswordRequired (runMatched n args cs acts).2
      = acts.countP (fun b => b == Act.passwordAct) := by
  induction acts generalizing cs with
  | nil => rfl
  | cons a rest ih =>
      simp only [runMatched]
      rw [countErr_append, invoke_countPR_none cs n args a hp,
        ih _ (by rw [invoke_pass]; exact hp), List.countP_cons]
      by_cases ha : a = Act.passwordAct <;> simp [ha] <;> omega

theorem runMatched_countPR_some (n : String) (args : List Val)
    (cs : ClientState) (acts : List Act) (p : String) (hp : cs.pass = some p) :
    countErr ErrKind.PasswordRequired (runMatched n args cs acts).2 = 0 := by
  induction acts generalizing cs with
  | nil => rfl
  | cons a rest ih =>
      simp only [runMatched]
      rw [countErr_append, invoke_countPR_some cs n args a p hp,
        ih _ (by rw [invoke_pass]; exact hp)]

theorem runMatched_countCP_none (n : String) (args : List Val)
    (cs : ClientState) (acts : List Act) (hp : cs.pass = none) :
    countSend "channelPassword" (runMatched n args cs acts).2 = 0 := by
  induction acts generalizing cs with
  | nil => rfl
  | cons a rest ih =>
      simp only [runMatched]
      rw [countSend_append, invoke_countCP_none cs n args a hp,
        ih _ (by rw [invoke_pass]; exact hp)]

theorem runMatched_countCP_some (n : String) (args : List Val)
    (cs : ClientState) (acts : List Act) (p : String) (hp : cs.pass = some p) :
    countOut (Output.send "channelPassword" [Val.vStr p])
      (runMatched n args cs acts).2
        = acts.countP (fun b => b == Act.passwordAct) := by
  induction acts generalizing cs with
  | nil => rfl
  | cons a rest ih =>
      simp only [runMatched]
      rw [countOut_append, invoke_countCP_some cs n args a p hp,
        ih _ (by rw [invoke_pass]; exact hp), List.countP_cons]
      by_cases ha : a = Act.passwordAct <;> simp [ha] <;> omega

theorem deliver_countPR_none (cs : ClientState) (e : Ev) (hp : cs.pass = none)
    (hq : actNamedOnce Act.passwordAct "needPassword" cs.listeners) :
    countErr ErrKind.PasswordRequired (deliver cs e).2
      = if isFrameNamed "needPassword" e then
          actCount Act.passwordAct cs.listeners else 0 := by
  cases e with
  | timer =>
      by_cases harm : cs.killswitchArmed = true <;>
        simp [deliver, harm, countErr, isFrameNamed]
  | frame n args =>
      simp only [deliver, isFrameNamed]
      rw [runMatched_countPR_none _ _ _ _ (by exact hp),
        matched_actCount Act.passwordAct "needPassword" n cs.listeners hq]
      by_cases hn : n = "needPassword"
      · simp [hn]
      · have hb : (n == "needPassword") = false := by
          rw [beq_eq_false_iff_ne]; exact hn
        simp [hn, hb]

theorem deliver_countPR_some (cs : ClientState) (e : Ev) (p : String)
    (hp : cs.pass = some p) :
    countErr ErrKind.PasswordRequired (deliver cs e).2 = 0 := by
  cases e with
  | timer =>
      by_cases harm : cs.killswitchArmed = true <;>
        simp [deliver, harm, countErr]
  | frame n args =>
      exact runMatched_countPR_some n args _ _ p (by exact hp)

theorem deliver_countCP_none (cs : ClientState) (e : Ev) (hp : cs.pass = none) :
    countSend "channelPassword" (deliver cs e).2 = 0 := by
  cases e with
  | timer =>
      by_cases harm : cs.killswitchArmed = true <;>
        simp [deliver, harm, countSend]
  | frame n args =>
      exact runMatched_countCP_none n args _ _ (by exact hp)

theorem deliver_countCP_some (cs : ClientState) (e : Ev) (p : String)
    (hp : cs.pass = some p)
    (hq : actNamedOnce Act.passwordAct "needPassword" cs.listeners) :
    countOut (Output.send "channelPassword" [Val.vStr p]) (deliver cs e).2
      = if isFrameNamed "needPassword" e then
          actCount Act.passwordAct cs.listeners else 0 := by
  cases e with
  | timer =>
      by_cases harm : cs.killswitchArmed = true <;>
        simp [deliver, harm, countOut, isFrameNamed]
  | frame n args =>
      simp only [deliver, isFrameNamed]
      rw [runMatched_countCP_some _ _ _ _ p (by exact hp),
        matched_actCount Act.passwordAct "needPassword" n cs.listeners hq]
      by_cases hn : n = "needPassword"
      · simp [hn]
      · have hb : (n == "needPassword") = false := by
          rw [beq_eq_false_iff_ne]; exact hn
        simp [hn, hb]

theorem run_countPR_none (cs : ClientState) (evs : List Ev) (hp : cs.pass = none)
    (hq : actNamedOnce Act.passwordAct "needPassword" cs.listeners) :
    countErr ErrKind.PasswordRequired (run cs evs).2
        + actCount Act.passwordAct ((run cs evs).1).listeners
      = actCount Act.passwordAct cs.listeners := by
  induction evs generalizing cs with
  | nil => simp [run, countErr]
  | cons e rest ih =>
      simp only [run]
      rw [countErr_append]
      have ihr := ih (deliver cs e).1 (by rw [deliver_pass]; exact hp)
        (actNamedOnce_deliver _ _ cs e hq (by decide))
      have hd := deliver_countPR_none cs e hp hq
      have hAfter := deliver_actCount Act.passwordAct "needPassword" cs e hq
        (by decide)
      by_cases hni : isFrameNamed "needPassword" e = true
      · rw [hni, if_pos rfl] at hd hAfter
        omega
      · rw [Bool.not_eq_true] at hni
        rw [hni] at hd hAfter
        simp only [Bool.false_eq_true, if_false] at hd hAfter
        omega

theorem run_countPR_some (cs : ClientState) (evs : List Ev) (p : String)
    (hp : cs.pass = some p) :
    countErr ErrKind.PasswordRequired (run cs evs).2 = 0 := by
  induction evs generalizing cs with
  | nil => rfl
  | cons e rest ih =>
      simp only [run]
      rw [countErr_append, deliver_countPR_some cs e p hp,
        ih _ (by rw [deliver_pass]; exact hp)]

theorem run_countCP_none (cs : ClientState) (evs : List Ev)
    (hp : cs.pass = none) :
    countSend "channelPassword" (run cs evs).2 = 0 := by
  induction evs generalizing cs with
  | nil => rfl
  | cons e rest ih =>
      simp only [run]
      rw [countSend_append, deliver_countCP_none cs e hp,
        ih _ (by rw [deliver_pass]; exact hp)]

theorem run_countCP_some (cs : ClientState) (evs : List Ev) (p : String)
    (hp : cs.pass = some p)
    (hq : actNamedOnce Act.passwordAct "needPassword" cs.listeners) :
    countOut (Output.send "channelPassword" [Val.vStr p]) (run cs evs).2
        + actCount Act.passwordAct ((run cs evs).1).listeners
      = actCount Act.passwordAct cs.listeners := by
  induction evs generalizing cs with
  | nil => simp [run, countOut]
  | cons e rest ih =>
      simp only [run]
      rw [countOut_append]
      have ihr := ih (deliver cs e).1 (by rw [deliver_pass]; exact hp)
        (actNamedOnce_deliver _ _ cs e hq (by decide))
      have hd := deliver_countCP_some cs e p hp hq
      have hAfter := deliver_actCount Act.passwordAct "needPassword" cs e hq
        (by decide)
      by_cases hni : isFrameNamed "needPassword" e = true
      · rw [hni, if_pos rfl] at hd hAfter
        omega
      · rw [Bool.not_eq_true] at hni
        rw [hni] at hd hAfter
        simp only [Bool.false_eq_true, if_false] at hd hAfter
        omega

theorem run_actCount_zero_of_mem (a : Act) (nm : String) (cs : ClientState)
    (evs : List Ev) (h : actNamedOnce a nm cs.listeners)
    (hrel : a ≠ Act.relayAct) (args : List Val)
    (hm : Ev.frame nm args ∈ evs) :
    actCount a ((run cs evs).1).listeners = 0 := by
  obtain ⟨s, t, rfl⟩ := List.append_of_mem hm
  rw [run_append]
  simp only [run]
  have hq1 := actNamedOnce_run a nm cs s h hrel
  have hz : actCount a ((deliver (run cs s).1 (Ev.frame nm args)).1).listeners
      = 0 := by
    rw [deliver_actCount a nm _ _ hq1 hrel]
    simp [isFrameNamed]
  exact actCount_zero_run a _ t nm
    (actNamedOnce_deliver a nm _ _ hq1 hrel) hrel hz

theorem actNamedOnce_password_init :
    actNamedOnce Act.passwordAct "needPassword" initListeners := WF_init.2.1

theorem passwordAct_count_init :
    actCount Act.passwordAct initListeners = 1 := by decide

/-- C4 counterexample: with the configured password being the *empty string*
(so the config holds no non-empty password), a `needPassword` frame does not
produce a `PasswordRequired` error — the code only checks
`typeof this.#pass !== "string"` — and a `channelPassword` frame carrying the
empty string is sent. -/
theorem password_request_counterexample :
    countErr ErrKind.PasswordRequired
      (run (initState (some "") "u" none) [Ev.frame "needPassword" []]).2 = 0 ∧
    countSend "channelPassword"
      (run (initState (some "") "u" none) [Ev.frame "needPassword" []]).2 = 1 ∧
    ("" : String).length = 0 := by
  refine ⟨by decide, by decide, by decide⟩

/-- C4 (amended): on a handshake attempt in which the server emits a
`needPassword` frame, if the config holds *no password at all* (`pass` is not
a string), exactly one `PasswordRequired` error is emitted and no
`channelPassword` frame is sent; if any string password is present — even the
empty one — no such error is emitted and exactly one `channelPassword` frame
carrying that string verbatim is sent. -/
theorem password_request_amended (user : String) (auth : Option String)
    (evs : List Ev) (args0 : List Val)
    (hocc : Ev.frame "needPassword" args0 ∈ evs) :
    (countErr ErrKind.PasswordRequired
        (run (initState none user auth) evs).2 = 1 ∧
      countSend "channelPassword" (run (initState none user auth) evs).2 = 0) ∧
    (∀ p : String,
      countErr ErrKind.PasswordRequired
        (run (initState (some p) user auth) evs).2 = 0 ∧
      countOut (Output.send "channelPassword" [Val.vStr p])
        (run (initState (some p) user auth) evs).2 = 1) := by
  refine ⟨⟨?_, ?_⟩, fun p => ⟨?_, ?_⟩⟩
  · have hledger := run_countPR_none (initState none user auth) evs rfl
      actNamedOnce_password_init
    have hzero := run_actCount_zero_of_mem Act.passwordAct "needPassword"
      (initState none user auth) evs actNamedOnce_password_init (by decide)
      args0 hocc
    have hil : (initState none user auth).listeners = initListeners := rfl
    rw [hzero, hil, passwordAct_count_init] at hledger
    omega
  · exact run_countCP_none (initState none user auth) evs rfl
  · exact run_countPR_some (initState (some p) user auth) evs p rfl
  · have hledger := run_countCP_some (initState (some p) user auth) evs p rfl
      actNamedOnce_password_init
    have hzero := run_actCount_zero_of_mem Act.passwordAct "needPassword"
      (initState (some p) user auth) evs actNamedOnce_password_init (by decide)
      args0 hocc
    have hil : (initState (some p) user auth).listeners = initListeners := rfl
    rw [hzero, hil, passwordAct_count_init] at hledger
    omega

/-- Witness for `password_request_amended` on a concrete one-frame trace. -/
theorem password_request_amended_witness :
    countErr ErrKind.PasswordRequired
      (run (initState none "u" none) [Ev.frame "needPassword" []]).2 = 1 ∧
    countOut (Output.send "channelPassword" [Val.vStr "pw"])
      (run (initState (some "pw") "u" none) [Ev.frame "needPassword" []]).2
        = 1 :=
  ⟨(password_request_amended "u" none [Ev.frame "needPassword" []] []
      (List.mem_cons_self _ _)).1.1,
    ((password_request_amended "u" none [Ev.frame "needPassword" []] []
      (List.mem_cons_self _ _)).2 "pw").2⟩

theorem invoke_countLF (cs : ClientState) (n : String) (args : List Val)
    (a : Act) :
    countErr ErrKind.LoginFailure (invoke cs n args a).2
      = if a = Act.loginAct ∧ loginFailed args = true then 1 else 0 := by
  cases a <;> simp only [invoke] <;> repeat' split
  all_goals simp_all [countErr, loginFailed]

theorem invoke_countLR (cs : ClientState) (n : String) (args : List Val)
    (a : Act) :
    countErr ErrKind.LoginRejected (invoke cs n args a).2
      = if a = Act.loginAct ∧ loginRejected args = true then 1 else 0 := by
  cases a <;> simp only [invoke] <;> repeat' split
  all_goals simp_all [countErr, loginRejected]

theorem invoke_countStarted (cs : ClientState) (n : String) (args : List Val)
    (a : Act) (hn : n ≠ "started") :
    countBus "started" (invoke cs n args a).2
      = if a = Act.loginAct ∧ loginOK args = true then 1 else 0 := by
  cases a <;> simp only [invoke] <;> repeat' split
  all_goals simp_all [countBus, loginOK]

theorem runMatched_countLF (n : String) (args : List Val) (cs : ClientState)
    (acts : List Act) :
    countErr ErrKind.LoginFailure (runMatched n args cs acts).2
      = if loginFailed args = true then
          acts.countP (fun b => b == Act.loginAct) else 0 := by
  induction acts generalizing cs with
  | nil => simp [runMatched, countErr]
  | cons a rest ih =>
      simp only [runMatched]
      rw [countErr_append, invoke_countLF, ih, List.countP_cons]
      by_cases hf : loginFailed args = true <;>
        by_cases ha : a = Act.loginAct <;> simp [hf, ha] <;> omega

theorem runMatched_countLR (n : String) (args : List Val) (cs : ClientState)
    (acts : List Act) :
    countErr ErrKind.LoginRejected (runMatched n args cs acts).2
      = if loginRejected args = true then
          acts.countP (fun b => b == Act.loginAct) else 0 := by
  induction acts generalizing cs with
  | nil => simp [runMatched, countErr]
  | cons a rest ih =>
      simp only [runMatched]
      rw [countErr_append, invoke_countLR, ih, List.countP_cons]
      by_cases hf : loginRejected args = true <;>
        by_cases ha : a = Act.loginAct <;> simp [hf, ha] <;> omega

theorem runMatched_countStarted (n : String) (args : List Val)
    (cs : ClientState) (acts : List Act) (hn : n ≠ "started") :
    countBus "started" (runMatched n args cs acts).2
      = if loginOK args = true then
          acts.countP (fun b => b == Act.loginAct) else 0 := by
  induction acts generalizing cs with
  | nil => simp [runMatched, countBus]
  | cons a rest ih =>
      simp only [runMatched]
      rw [countBus_append, invoke_countStarted cs n args a hn, ih,
        List.countP_cons]
      by_cases hf : loginOK args = true <;>
        by_cases ha : a = Act.loginAct <;> simp [hf, ha] <;> omega

theorem matchedActs_empty_of_unknown (n : String) (ls : List Listener)
    (hwf : WF ls) (hn : n ∉ knownNames) : matchedActs n ls = [] := by
  unfold matchedActs
  rw [List.map_eq_nil_iff, List.filter_eq_nil_iff]
  intro l hl hb
  have := hwf.1 l hl
  rw [(by simpa using hb : l.name = n)] at this
  exact hn this

theorem deliver_countLF_frame (cs : ClientState) (n : String) (args : List Val)
    (hq : actNamedOnce Act.loginAct "login" cs.listeners) :
    countErr ErrKind.LoginFailure (deliver cs (Ev.frame n args)).2
      = if n = "login" ∧ loginFailed args = true then
          actCount Act.loginAct cs.listeners else 0 := by
  simp only [deliver]
  rw [runMatched_countLF,
    matched_actCount Act.loginAct "login" n cs.listeners hq]
  by_cases hn : n = "login" <;> by_cases hf : loginFailed args = true <;>
    simp [hn, hf]

theorem deliver_countLR_frame (cs : ClientState) (n : String) (args : List Val)
    (hq : actNamedOnce Act.loginAct "login" cs.listeners) :
    countErr ErrKind.LoginRejected (deliver cs (Ev.frame n args)).2
      = if n = "login" ∧ loginRejected args = true then
          actCount Act.loginAct cs.listeners else 0 := by
  simp only [deliver]
  rw [runMatched_countLR,
    matched_actCount Act.loginAct "login" n cs.listeners hq]
  by_cases hn : n = "login" <;> by_cases hf : loginRejected args = true <;>
    simp [hn, hf]

theorem deliver_countStarted_frame (cs : ClientState) (n : String)
    (args : List Val) (hwf : WF cs.listeners) :
    countBus "started" (deliver cs (Ev.frame n args)).2
      = if n = "login" ∧ loginOK args = true then
          actCount Act.loginAct cs.listeners else 0 := by
  by_cases hs : n = "started"
  · subst hs
    have hempty := matchedActs_empty_of_unknown "started" cs.listeners hwf
      started_not_known
    simp only [deliver]
    rw [hempty]
    simp [runMatched, countBus]
  · simp only [deliver]
    rw [runMatched_countStarted _ _ _ _ hs,
      matched_actCount Act.loginAct "login" n cs.listeners hwf.2.2.1]
    by_cases hn : n = "login" <;> by_cases hf : loginOK args = true <;>
      simp [hn, hf]

theorem deliver_timer_no_login_outputs (cs : ClientState) :
    countErr ErrKind.LoginFailure (deliver cs Ev.timer).2 = 0 ∧
    countErr ErrKind.LoginRejected (deliver cs Ev.timer).2 = 0 ∧
    countBus "started" (deliver cs Ev.timer).2 = 0 := by
  by_cases harm : cs.killswitchArmed = true <;>
    simp [deliver, harm, countErr, countBus]

theorem run_actCount_keep (a : Act) (nm : String) (cs : ClientState)
    (evs : List Ev) (h : actNamedOnce a nm cs.listeners)
    (hrel : a ≠ Act.relayAct)
    (hno : ∀ e ∈ evs, isFrameNamed nm e = false) :
    actCount a ((run cs evs).1).listeners = actCount a cs.listeners := by
  induction evs generalizing cs with
  | nil => rfl
  | cons e rest ih =>
      simp only [run]
      rw [ih _ (actNamedOnce_deliver a nm cs e h hrel)
        (fun e2 he2 => hno e2 (List.mem_cons_of_mem e he2))]
      rw [deliver_actCount a nm cs e h hrel,
        hno e (List.mem_cons_self e rest)]
      simp

theorem run_login_outputs_zero (cs : ClientState) (evs : List Ev)
    (hwf : WF cs.listeners)
    (h : ∀ e ∈ evs, isFrameNamed "login" e = false) :
    countErr ErrKind.LoginFailure (run cs evs).2 = 0 ∧
    countErr ErrKind.LoginRejected (run cs evs).2 = 0 ∧
    countBus "started" (run cs evs).2 = 0 := by
  induction evs generalizing cs with
  | nil => exact ⟨rfl, rfl, rfl⟩
  | cons e rest ih =>
      simp only [run]
      obtain ⟨ih1, ih2, ih3⟩ := ih (deliver cs e).1 (WF_deliver cs e hwf)
        (fun e2 he2 => h e2 (List.mem_cons_of_mem e he2))
      rw [countErr_append, countErr_append, countBus_append, ih1, ih2, ih3]
      cases e with
      | timer =>
          obtain ⟨t1, t2, t3⟩ := deliver_timer_no_login_outputs cs
          rw [t1, t2, t3]
          exact ⟨rfl, rfl, rfl⟩
      | frame n args =>
          have hn : ¬(n = "login") := by
            have := h (Ev.frame n args) (List.mem_cons_self _ _)
            simp only [isFrameNamed] at this
            exact fun hq => by simp [hq] at this
          rw [deliver_countLF_frame cs n args hwf.2.2.1,
            deliver_countLR_frame cs n args hwf.2.2.1,
            deliver_countStarted_frame cs n args hwf]
          simp [hn]

theorem run_login_outputs_zero_consumed (cs : ClientState) (evs : List Ev)
    (hwf : WF cs.listeners)
    (hz : actCount Act.loginAct cs.listeners = 0) :
    countErr ErrKind.LoginFailure (run cs evs).2 = 0 ∧
    countErr ErrKind.LoginRejected (run cs evs).2 = 0 ∧
    countBus "started" (run cs evs).2 = 0 := by
  induction evs generalizing cs with
  | nil => exact ⟨rfl, rfl, rfl⟩
  | cons e rest ih =>
      simp only [run]
      have hz2 : actCount Act.loginAct ((deliver cs e).1).listeners = 0 := by
        rw [deliver_actCount Act.loginAct "login" cs e hwf.2.2.1 (by decide), hz]
        split <;> rfl
      obtain ⟨ih1, ih2, ih3⟩ := ih (deliver cs e).1 (WF_deliver cs e hwf) hz2
      rw [countErr_append, countErr_append, countBus_append, ih1, ih2, ih3]
      cases e with
      | timer =>
          obtain ⟨t1, t2, t3⟩ := deliver_timer_no_login_outputs cs
          rw [t1, t2, t3]
          exact ⟨rfl, rfl, rfl⟩
      | frame n args =>
          rw [deliver_countLF_frame cs n args hwf.2.2.1,
            deliver_countLR_frame cs n args hwf.2.2.1,
            deliver_countStarted_frame cs n args hwf, hz]
          refine ⟨?_, ?_, ?_⟩ <;> split <;> rfl

theorem loginAct_count_init : actCount Act.loginAct initListeners = 1 := by
  decide

/-- C5: for a handshake attempt whose one-shot login handler is still pending,
the first login-result frame determines the outcome: a missing body yields
exactly one `LoginFailure` error (and no `LoginRejected`, no `started`); a
body with a falsy success indicator yields exactly one `LoginRejected` error
(and no `LoginFailure`), and the handshake never reaches Ready — no `started`
event is ever emitted on the whole trace. -/
theorem login_result_spec (pass : Option String) (user : String)
    (auth : Option String) (pre post : List Ev) (args : List Val)
    (hpre : ∀ e ∈ pre, isFrameNamed "login" e = false) :
    (loginFailed args = true →
      countErr ErrKind.LoginFailure (run (initState pass user auth)
        (pre ++ Ev.frame "login" args :: post)).2 = 1 ∧
      countErr ErrKind.LoginRejected (run (initState pass user auth)
        (pre ++ Ev.frame "login" args :: post)).2 = 0 ∧
      countBus "started" (run (initState pass user auth)
        (pre ++ Ev.frame "login" args :: post)).2 = 0) ∧
    (loginRejected args = true →
      countErr ErrKind.LoginRejected (run (initState pass user auth)
        (pre ++ Ev.frame "login" args :: post)).2 = 1 ∧
      countErr ErrKind.LoginFailure (run (initState pass user auth)
        (pre ++ Ev.frame "login" args :: post)).2 = 0 ∧
      countBus "started" (run (initState pass user auth)
        (pre ++ Ev.frame "login" args :: post)).2 = 0) := by
  have hwfI : WF (initState pass user auth).listeners := WF_init
  have hwf1 := WF_run (initState pass user auth) pre hwfI
  have hq1 := hwf1.2.2.1
  have hc1 : actCount Act.loginAct
      ((run (initState pass user auth) pre).1).listeners = 1 := by
    rw [run_actCount_keep Act.loginAct "login" _ pre hwfI.2.2.1 (by decide) hpre]
    exact loginAct_count_init
  obtain ⟨p1, p2, p3⟩ := run_login_outputs_zero _ pre hwfI hpre
  have hzafter : actCount Act.loginAct
      ((deliver ((run (initState pass user auth) pre).1)
        (Ev.frame "login" args)).1).listeners = 0 := by
    rw [deliver_actCount Act.loginAct "login" _ _ hq1 (by decide)]
    simp [isFrameNamed]
  obtain ⟨q1, q2, q3⟩ := run_login_outputs_zero_consumed _ post
    (WF_deliver _ _ hwf1) hzafter
  have expand : (run (initState pass user auth)
      (pre ++ Ev.frame "login" args :: post)).2
    = (run (initState pass user auth) pre).2
      ++ ((deliver ((run (initState pass user auth) pre).1)
            (Ev.frame "login" args)).2
        ++ (run ((deliver ((run (initState pass user auth) pre).1)
            (Ev.frame "login" args)).1) post).2) := by
    rw [run_append]
    simp only [run]
  constructor
  · intro hf
    have hrej : loginRejected args = false := by
      cases args with
      | nil => rfl
      | cons v vs => simp [loginFailed] at hf
    have hok : loginOK args = false := by
      cases args with
      | nil => rfl
      | cons v vs => simp [loginFailed] at hf
    refine ⟨?_, ?_, ?_⟩
    · rw [expand, countErr_append, countErr_append, p1, q1,
        deliver_countLF_frame _ _ _ hq1, hc1]
      simp [hf]
    · rw [expand, countErr_append, countErr_append, p2, q2,
        deliver_countLR_frame _ _ _ hq1]
      simp [hrej]
    · rw [expand, countBus_append, countBus_append, p3, q3,
        deliver_countStarted_frame _ _ _ hwf1]
      simp [hok]
  · intro hr
    have hf : loginFailed args = false := by
      cases args with
      | nil => simp [loginRejected] at hr
      | cons v vs => rfl
    have hok : loginOK args = false := by
      cases args with
      | nil => rfl
      | cons v vs =>
          simp only [loginRejected, Bool.not_eq_true'] at hr
          simp [loginOK, hr]
    refine ⟨?_, ?_, ?_⟩
    · rw [expand, countErr_append, countErr_append, p2, q2,
        deliver_countLR_frame _ _ _ hq1, hc1]
      simp [hr]
    · rw [expand, countErr_append, countErr_append, p1, q1,
        deliver_countLF_frame _ _ _ hq1]
      simp [hf]
    · rw [expand, countBus_append, countBus_append, p3, q3,
        deliver_countStarted_frame _ _ _ hwf1]
      simp [hok]

/-- Witness for `login_result_spec` on concrete one-frame traces. -/
theorem login_result_spec_witness :
    countErr ErrKind.LoginFailure
      (run (initState none "u" none) ([] ++ Ev.frame "login" [] :: [])).2 = 1 ∧
    countErr ErrKind.LoginRejected
      (run (initState none "u" none)
        ([] ++ Ev.frame "login" [Val.vLogin false] :: [])).2 = 1 :=
  ⟨((login_result_spec none "u" none [] [] [] (by intro e he; simp at he)).1
      rfl).1,
    ((login_result_spec none "u" none [] [] [Val.vLogin false]
      (by intro e he; simp at he)).2 rfl).1⟩

theorem disconnect_mem_handlers : "disconnect" ∈ handlers := by decide

theorem relayCount_append (f : String) (l1 l2 : List Listener) :
    relayCount f (l1 ++ l2) = relayCount f l1 + relayCount f l2 :=
  List.countP_append ..

theorem relayCount_removeOnce (f n : String) (ls : List Listener)
    (hwf : WF ls) : relayCount f (removeOnce n ls) = relayCount f ls := by
  unfold relayCount removeOnce
  rw [List.countP_filter]
  apply List.countP_congr
  intro l hl
  constructor
  · intro hc
    exact ((Bool.and_eq_true _ _).mp hc).1
  · intro hc
    obtain ⟨h1, h2⟩ := (Bool.and_eq_true _ _).mp hc
    have hact : l.act = Act.relayAct := by simpa using h2
    have honce := (hwf.2.2.2.2.2.1 l hl hact).1
    simp [h1, h2, honce]

theorem matched_connect (ls : List Listener) (hwf : WF ls) :
    matchedActs "connect" ls
      = List.replicate (actCount Act.connectAct ls) Act.connectAct := by
  have hall : ∀ b ∈ matchedActs "connect" ls, b = Act.connectAct := by
    intro b hb
    obtain ⟨l, hl, hname, hact⟩ := matched_mem "connect" ls b hb
    cases hbact : l.act with
    | relayAct =>
        have := (hwf.2.2.2.2.2.1 l hl hbact).2
        rw [hname] at this
        exact absurd this connect_not_handler
    | errAct =>
        have := hwf.2.2.2.2.2.2 l hl hbact
        rw [hname] at this
        simp at this
    | passwordAct =>
        have := (hwf.2.1 l hl hbact).1
        rw [hname] at this
        simp at this
    | loginAct =>
        have := (hwf.2.2.1 l hl hbact).1
        rw [hname] at this
        simp at this
    | rankAct =>
        have := (hwf.2.2.2.1 l hl hbact).1
        rw [hname] at this
        simp at this
    | connectAct => rw [← hact, hbact]
  have hlen : (matchedActs "connect" ls).length = actCount Act.connectAct ls := by
    have hmc := matched_actCount Act.connectAct "connect" "connect" ls
      hwf.2.2.2.2.1
    rw [if_pos rfl] at hmc
    have hcl : (matchedActs "connect" ls).countP (fun b => b == Act.connectAct)
        = (matchedActs "connect" ls).length :=
      List.countP_eq_length.mpr (fun b hb => by simp [hall b hb])
    rw [← hcl, hmc]
  rw [← hlen]
  exact List.eq_replicate_of_mem hall

theorem runMatched_listeners_no_connect (n : String) (args : List Val)
    (cs : ClientState) (acts : List Act) (h : Act.connectAct ∉ acts) :
    ((runMatched n args cs acts).1).listeners = cs.listeners := by
  induction acts generalizing cs with
  | nil => rfl
  | cons a rest ih =>
      simp only [runMatched]
      rw [ih _ (fun hmem => h (List.mem_cons_of_mem a hmem))]
      have ha : a ≠ Act.connectAct :=
        fun hq => h (hq ▸ List.mem_cons_self a rest)
      cases a <;> simp only [invoke] <;> repeat' split
      all_goals first | rfl | exact absurd rfl ha

theorem RelayInv_deliver (cs : ClientState) (e : Ev) (hwf : WF cs.listeners)
    (hri : RelayInv cs.listeners) : RelayInv ((deliver cs e).1).listeners := by
  cases e with
  | timer =>
      by_cases harm : cs.killswitchArmed = true <;> simp [deliver, harm] <;>
        exact hri
  | frame n args =>
      by_cases hn : n = "connect"
      · subst hn
        have hk := hri "disconnect" disconnect_mem_handlers
        simp only [deliver]
        rw [matched_connect cs.listeners hwf]
        cases hkc : actCount Act.connectAct cs.listeners with
        | zero =>
            rw [hkc] at hk
            simp only [List.replicate_zero]
            intro f hf
            have := hri f hf
            rw [hkc] at this
            rw [runMatched_listeners_no_connect _ _ _ _ (by simp)]
            have hrc : relayCount f (removeOnce "connect" cs.listeners)
                = relayCount f cs.listeners :=
              relayCount_removeOnce f "connect" cs.listeners hwf
            rw [hrc, removeOnce_actCount Act.connectAct "connect" "connect"
              cs.listeners hwf.2.2.2.2.1, if_pos rfl]
            omega
        | succ k =>
            have hk1 : k = 0 := by
              rw [hkc] at hk
              omega
            subst hk1
            simp only [List.replicate_succ, List.replicate_zero]
            intro f hf
            have hri_f := hri f hf
            rw [hkc] at hri_f
            have hlist : ((runMatched "connect" args
                { cs with listeners := removeOnce "connect" cs.listeners }
                [Act.connectAct]).1).listeners
                = removeOnce "connect" cs.listeners ++ relayListeners := by
              simp [runMatched, invoke]
            rw [hlist, relayCount_append,
              relayCount_removeOnce f "connect" cs.listeners hwf,
              relayCount_relayListeners f hf]
            unfold actCount
            rw [List.countP_append]
            have hz1 : actCount Act.connectAct
                (removeOnce "connect" cs.listeners) = 0 := by
              rw [removeOnce_actCount Act.connectAct "connect" "connect"
                cs.listeners hwf.2.2.2.2.1, if_pos rfl]
            have hz2 := relayListeners_actCount Act.connectAct (by decide)
            unfold actCount at hz1 hz2
            rw [hz1, hz2]
            omega
      · simp only [deliver]
        rw [runMatched_listeners_no_connect _ _ _ _
          (matched_not_mem Act.connectAct "connect" n cs.listeners
            hwf.2.2.2.2.1 hn)]
        intro f hf
        rw [relayCount_removeOnce f n cs.listeners hwf,
          removeOnce_actCount Act.connectAct "connect" n cs.listeners
            hwf.2.2.2.2.1, if_neg hn]
        exact hri f hf

theorem RelayInv_run (cs : ClientState) (evs : List Ev) (hwf : WF cs.listeners)
    (hri : RelayInv cs.listeners) : RelayInv ((run cs evs).1).listeners := by
  induction evs generalizing cs with
  | nil => exact hri
  | cons e rest ih =>
      simp only [run]
      exact ih _ (WF_deliver cs e hwf) (RelayInv_deliver cs e hwf hri)

theorem RelayInv_init : RelayInv initListeners := by
  unfold RelayInv relayCount actCount initListeners
  decide

theorem busNamed_append (n : String) (l1 l2 : List Output) :
    busNamed n (l1 ++ l2) = busNamed n l1 ++ busNamed n l2 :=
  List.filter_append ..

theorem invoke_busNamed (cs : ClientState) (f : String) (args : List Val)
    (a : Act) (hf1 : f ≠ "connected") (hf2 : f ≠ "started") :
    busNamed f (invoke cs f args a).2
      = if a = Act.relayAct then [Output.busEvent f args] else [] := by
  have hb1 : ("connected" == f) = false := by
    rw [beq_eq_false_iff_ne]
    exact fun hq => hf1 hq.symm
  have hb2 : ("started" == f) = false := by
    rw [beq_eq_false_iff_ne]
    exact fun hq => hf2 hq.symm
  cases a <;> simp only [invoke] <;> repeat' split
  all_goals simp_all [busNamed]

theorem runMatched_busNamed (f : String) (args : List Val) (cs : ClientState)
    (acts : List Act) (hf1 : f ≠ "connected") (hf2 : f ≠ "started") :
    busNamed f (runMatched f args cs acts).2
      = List.replicate (acts.countP (fun b => b == Act.relayAct))
          (Output.busEvent f args) := by
  induction acts generalizing cs with
  | nil => simp [runMatched, busNamed]
  | cons a rest ih =>
      simp only [runMatched]
      rw [busNamed_append, invoke_busNamed cs f args a hf1 hf2, ih,
        List.countP_cons]
      by_cases ha : a = Act.relayAct
      · simp [ha, List.replicate_succ]
      · simp [ha]

theorem matched_relayCount (f : String) (ls : List Listener) :
    (matchedActs f ls).countP (fun b => b == Act.relayAct)
      = relayCount f ls := by
  unfold matchedActs relayCount
  rw [List.countP_map, List.countP_filter]
  apply List.countP_congr
  intro l hl
  simp [Function.comp, Bool.and_comm]

theorem deliver_busNamed (cs : ClientState) (f : String) (args : List Val)
    (hf1 : f ≠ "connected") (hf2 : f ≠ "started") :
    busNamed f (deliver cs (Ev.frame f args)).2
      = List.replicate (relayCount f cs.listeners)
          (Output.busEvent f args) := by
  simp only [deliver]
  rw [runMatched_busNamed f args _ _ hf1 hf2, matched_relayCount]

/-- C6: once the transport-level `connect` notice has fired (which happens
before the handshake can reach Ready), the relay subscriptions are installed
exactly once per transport session — even if further `connect` notices occur
on transport-level reconnects — and delivering any catalog frame with any
arguments produces exactly one same-named consumer-bus event carrying those
arguments unchanged. -/
theorem frame_relay_spec (pass : Option String) (user : String)
    (auth : Option String) (pre post : List Ev) (cargs : List Val) (f : String)
    (hf : f ∈ handlers) (args : List Val) :
    relayCount f ((run (initState pass user auth)
      (pre ++ Ev.frame "connect" cargs :: post)).1).listeners = 1 ∧
    busNamed f (deliver ((run (initState pass user auth)
        (pre ++ Ev.frame "connect" cargs :: post)).1) (Ev.frame f args)).2
      = [Output.busEvent f args] := by
  have hwfI : WF (initState pass user auth).listeners := WF_init
  have hriI : RelayInv (initState pass user auth).listeners := RelayInv_init
  have hri := RelayInv_run (initState pass user auth)
    (pre ++ Ev.frame "connect" cargs :: post) hwfI hriI
  have hz := run_actCount_zero_of_mem Act.connectAct "connect"
    (initState pass user auth) (pre ++ Ev.frame "connect" cargs :: post)
    hwfI.2.2.2.2.1 (by decide) cargs (by simp)
  have hrc : relayCount f ((run (initState pass user auth)
      (pre ++ Ev.frame "connect" cargs :: post)).1).listeners = 1 := by
    have := hri f hf
    omega
  refine ⟨hrc, ?_⟩
  rw [deliver_busNamed _ f args
    (fun hq => connected_not_handler (hq ▸ hf))
    (fun hq => started_not_handler (hq ▸ hf)), hrc]
  rfl

/-- Witness for `frame_relay_spec`: a `chatMsg` frame after the `connect`
notice is relayed exactly once with its argument unchanged. -/
theorem frame_relay_spec_witness :
    ("chatMsg" ∈ handlers) ∧
    busNamed "chatMsg" (deliver ((run (initState none "u" none)
        ([] ++ Ev.frame "connect" [] :: [])).1)
        (Ev.frame "chatMsg" [Val.vStr "hello"])).2
      = [Output.busEvent "chatMsg" [Val.vStr "hello"]] :=
  ⟨by decide, (frame_relay_spec none "u" none [] [] [] "chatMsg" (by decide)
    [Val.vStr "hello"]).2⟩

theorem runMatched_rank_mem (n : String) (args : List Val) (cs : ClientState)
    (acts : List Act) (hmem : Act.rankAct ∈ acts) :
    Output.send "login" [Val.vStr cs.user, authVal cs.auth]
      ∈ (runMatched n args cs acts).2 := by
  induction acts generalizing cs with
  | nil => simp at hmem
  | cons a rest ih =>
      simp only [runMatched]
      by_cases ha : a = Act.rankAct
      · subst ha
        apply List.mem_append_left
        simp [invoke]
      · rcases List.mem_cons.mp hmem with h | h
        · exact absurd h.symm ha
        · apply List.mem_append_right
          have := ih (invoke cs n args a).1 h
          rwa [invoke_user, invoke_auth] at this

theorem runMatched_login_mem (n : String) (args : List Val) (cs : ClientState)
    (acts : List Act) (hmem : Act.loginAct ∈ acts) :
    (loginFailed args = true →
      Output.busError ErrKind.LoginFailure ∈ (runMatched n args cs acts).2) ∧
    (loginRejected args = true →
      Output.busError ErrKind.LoginRejected ∈ (runMatched n args cs acts).2) ∧
    (loginOK args = true →
      Output.busEvent "started" [] ∈ (runMatched n args cs acts).2) := by
  induction acts generalizing cs with
  | nil => simp at hmem
  | cons a rest ih =>
      simp only [runMatched]
      by_cases ha : a = Act.loginAct
      · subst ha
        refine ⟨?_, ?_, ?_⟩ <;> intro hc <;> apply List.mem_append_left
        · cases args with
          | nil => simp [invoke]
          | cons v vs => simp [loginFailed] at hc
        · cases args with
          | nil => simp [loginRejected] at hc
          | cons v vs =>
              simp only [loginRejected, Bool.not_eq_true'] at hc
              simp [invoke, hc]
        · cases args with
          | nil => simp [loginOK] at hc
          | cons v vs =>
              simp only [loginOK] at hc
              simp [invoke, hc]
      · rcases List.mem_cons.mp hmem with h | h
        · exact absurd h.symm ha
        · obtain ⟨i1, i2, i3⟩ := ih (invoke cs n args a).1 h
          exact ⟨fun hc => List.mem_append_right _ (i1 hc),
            fun hc => List.mem_append_right _ (i2 hc),
            fun hc => List.mem_append_right _ (i3 hc)⟩

theorem deliver_rank_mem (cs : ClientState) (rargs : List Val)
    (hl : (⟨"rank", true, Act.rankAct⟩ : Listener) ∈ cs.listeners) :
    Output.send "login" [Val.vStr cs.user, authVal cs.auth]
      ∈ (deliver cs (Ev.frame "rank" rargs)).2 := by
  simp only [deliver]
  exact runMatched_rank_mem "rank" rargs _ _
    (mem_matchedActs _ "rank" cs.listeners hl rfl)

theorem deliver_login_mem (cs : ClientState) (largs : List Val)
    (hl : (⟨"login", true, Act.loginAct⟩ : Listener) ∈ cs.listeners) :
    (loginFailed largs = true →
      Output.busError ErrKind.LoginFailure
        ∈ (deliver cs (Ev.frame "login" largs)).2) ∧
    (loginRejected largs = true →
      Output.busError ErrKind.LoginRejected
        ∈ (deliver cs (Ev.frame "login" largs)).2) ∧
    (loginOK largs = true →
      Output.busEvent "started" [] ∈ (deliver cs (Ev.frame "login" largs)).2) := by
  simp only [deliver]
  exact runMatched_login_mem "login" largs _ _
    (mem_matchedActs _ "login" cs.listeners hl rfl)

theorem rankListener_mem_init :
    (⟨"rank", true, Act.rankAct⟩ : Listener) ∈ initListeners := by decide

/-- C8: all handshake frame handlers are registered during the synchronous
`connect()` setup, before any inbound frame can be processed.  Hence the
one-shot login handler is already in the registry when the rank frame — whose
handler performs the triggering login send — arrives, and no handshake frame
is missed: the first rank frame always produces the outgoing login frame
(username plus auth token), and the first login-result frame is always
handled, producing its failure error or the `started` event. -/
theorem handshake_ordering_spec (pass : Option String) (user : String)
    (auth : Option String) (pre mid post : List Ev) (rargs largs : List Val)
    (hpre : ∀ e ∈ pre,
      isFrameNamed "rank" e = false ∧ isFrameNamed "login" e = false)
    (hmid : ∀ e ∈ mid, isFrameNamed "login" e = false) :
    ((⟨"login", true, Act.loginAct⟩ : Listener)
      ∈ ((run (initState pass user auth) pre).1).listeners) ∧
    (Output.send "login" [Val.vStr user, authVal auth]
      ∈ (run (initState pass user auth)
        (pre ++ Ev.frame "rank" rargs :: (mid ++ Ev.frame "login" largs :: post))).2) ∧
    (loginFailed largs = true →
      Output.busError ErrKind.LoginFailure ∈ (run (initState pass user auth)
        (pre ++ Ev.frame "rank" rargs :: (mid ++ Ev.frame "login" largs :: post))).2) ∧
    (loginRejected largs = true →
      Output.busError ErrKind.LoginRejected ∈ (run (initState pass user auth)
        (pre ++ Ev.frame "rank" rargs :: (mid ++ Ev.frame "login" largs :: post))).2) ∧
    (loginOK largs = true →
      Output.busEvent "started" [] ∈ (run (initState pass user auth)
        (pre ++ Ev.frame "rank" rargs :: (mid ++ Ev.frame "login" largs :: post))).2) := by
  have hlogin1 : (⟨"login", true, Act.loginAct⟩ : Listener)
      ∈ ((run (initState pass user auth) pre).1).listeners :=
    run_mem _ pre _ loginListener_mem_init (fun e he => (hpre e he).2)
  have hrank1 : (⟨"rank", true, Act.rankAct⟩ : Listener)
      ∈ ((run (initState pass user auth) pre).1).listeners :=
    run_mem _ pre _ rankListener_mem_init (fun e he => (hpre e he).1)
  have expand : (run (initState pass user auth)
      (pre ++ Ev.frame "rank" rargs :: (mid ++ Ev.frame "login" largs :: post))).2
    = (run (initState pass user auth) pre).2
      ++ ((deliver ((run (initState pass user auth) pre).1)
            (Ev.frame "rank" rargs)).2
        ++ ((run ((deliver ((run (initState pass user auth) pre).1)
              (Ev.frame "rank" rargs)).1) mid).2
          ++ ((deliver ((run ((deliver ((run (initState pass user auth) pre).1)
                (Ev.frame "rank" rargs)).1) mid).1)
              (Ev.frame "login" largs)).2
            ++ (run ((deliver ((run ((deliver ((run (initState pass user auth)
                  pre).1) (Ev.frame "rank" rargs)).1) mid).1)
                (Ev.frame "login" largs)).1) post).2))) := by
    rw [run_append]
    simp only [run]
    rw [run_append]
    simp only [run]
  have huser : ((run (initState pass user auth) pre).1).user = user :=
    run_user _ pre
  have hauth : ((run (initState pass user auth) pre).1).auth = auth :=
    run_auth _ pre
  have hrank_out := deliver_rank_mem ((run (initState pass user auth) pre).1)
    rargs hrank1
  rw [huser, hauth] at hrank_out
  have hlogin2 : (⟨"login", true, Act.loginAct⟩ : Listener)
      ∈ ((run ((deliver ((run (initState pass user auth) pre).1)
        (Ev.frame "rank" rargs)).1) mid).1).listeners := by
    apply run_mem _ mid _ _ hmid
    exact deliver_mem _ _ _ hlogin1 (by simp [isFrameNamed])
  obtain ⟨o1, o2, o3⟩ := deliver_login_mem _ largs hlogin2
  refine ⟨hlogin1, ?_, ?_, ?_, ?_⟩
  · rw [expand]
    exact List.mem_append_right _ (List.mem_append_left _ hrank_out)
  · intro hc
    rw [expand]
    exact List.mem_append_right _ (List.mem_append_right _
      (List.mem_append_right _ (List.mem_append_left _ (o1 hc))))
  · intro hc
    rw [expand]
    exact List.mem_append_right _ (List.mem_append_right _
      (List.mem_append_right _ (List.mem_append_left _ (o2 hc))))
  · intro hc
    rw [expand]
    exact List.mem_append_right _ (List.mem_append_right _
      (List.mem_append_right _ (List.mem_append_left _ (o3 hc))))

/-- Witness for `handshake_ordering_spec` on a concrete rank-then-login trace. -/
theorem handshake_ordering_spec_witness :
    Output.send "login" [Val.vStr "u", authVal (some "tok")]
      ∈ (run (initState none "u" (some "tok"))
        ([] ++ Ev.frame "rank" [] ::
          ([] ++ Ev.frame "login" [Val.vLogin true] :: []))).2 :=
  (handshake_ordering_spec none "u" (some "tok") [] [] [] [] [Val.vLogin true]
    (by intro e he; simp at he) (by intro e he; simp at he)).2.1
